import Mathlib

/-!
Verification development for the emonhub transport-reader / frame-decode
subsystem (`emonhub_interfacer.py`).  Python strings are modelled as `List Char`,
Python numeric/str/list values as `PyVal`, dictionaries as association lists,
logging as explicit log-entry lists, and raised exceptions as `Except Unit`.
The codec fact base (`emonhub_coder`, imported as `ehc`) is not part of the
sources; it is modelled from the specification where noted.
-/

set_option maxRecDepth 10000

/-- Python strings, modelled as lists of characters. -/
abbrev PyStr := List Char

/-- Whitespace characters stripped by Python's `str.strip()` / numeric parsing. -/
def pyIsWS (c : Char) : Bool :=
  c = ' ' || c = '\t' || c = '\n' || c = '\r' || c = '\x0b' || c = '\x0c'

/-- `str.strip()`: remove leading and trailing whitespace. -/
def pyStripWS (s : PyStr) : PyStr :=
  ((s.dropWhile pyIsWS).reverse.dropWhile pyIsWS).reverse

/-- `str.lower()` (ASCII case folding, sufficient for the settings keywords). -/
def pyLower (s : PyStr) : PyStr := s.map Char.toLower

/-- `str.capitalize()`: first character upper-cased, the rest lower-cased. -/
def pyCapitalize (s : PyStr) : PyStr :=
  match s with
  | [] => []
  | c :: rest => c.toUpper :: pyLower rest

/-- `str.isdigit()` on ASCII text: non-empty and all decimal digits. -/
def pyIsDigit (s : PyStr) : Bool := !s.isEmpty && s.all Char.isDigit

/-- Numeric value of a digit string. -/
def digitsVal (ds : List Char) : Nat := ds.foldl (fun a c => a * 10 + (c.toNat - 48)) 0

/-- `int(s)` on a string: optional surrounding whitespace, optional sign, digits.
Returns `none` where Python raises `ValueError`. -/
def pyParseInt (s : PyStr) : Option Int :=
  let s := pyStripWS s
  match s with
  | '-' :: r => if pyIsDigit r then some (-(digitsVal r : Int)) else none
  | '+' :: r => if pyIsDigit r then some (digitsVal r : Int) else none
  | r => if pyIsDigit r then some (digitsVal r : Int) else none

/-- `float(s)` on a string, restricted to the plain decimal grammar
(optional sign, digits with an optional decimal point; the builtin's
exponent/`inf`/`nan` forms do not occur in the modelled telemetry tokens).
Values are exact rationals.  Returns `none` where Python raises `ValueError`. -/
def pyParseFloat (s : PyStr) : Option ℚ :=
  let s := pyStripWS s
  let (neg, s) : Bool × PyStr :=
    match s with
    | '-' :: r => (true, r)
    | '+' :: r => (false, r)
    | r => (false, r)
  let intPart := s.takeWhile Char.isDigit
  let rest := s.dropWhile Char.isDigit
  let val? : Option ℚ :=
    match rest with
    | [] => if intPart.isEmpty then none else some (digitsVal intPart : ℚ)
    | '.' :: frac =>
      if frac.all Char.isDigit && (!intPart.isEmpty || !frac.isEmpty) then
        some ((digitsVal intPart : ℚ) + (digitsVal frac : ℚ) / ((10 : ℚ) ^ frac.length))
      else none
    | _ => none
  val?.map (fun q => if neg then -q else q)

/-- `str(n)` for an integer. -/
def intRepr (n : Int) : PyStr :=
  if n < 0 then '-' :: Nat.toDigits 10 n.natAbs else Nat.toDigits 10 n.toNat

/-- Python values occurring in the interfacer settings machinery:
integers, strings and (configobj) lists of strings. -/
inductive PyVal where
  | int (n : Int)
  | str (s : PyStr)
  | list (xs : List PyStr)
  deriving DecidableEq

/-- Python `==` between settings values (Python 2: `0 == '0'` is `False`). -/
def pyEq : PyVal → PyVal → Bool
  | .int a, .int b => a = b
  | .str a, .str b => a = b
  | .list a, .list b => a = b
  | _, _ => false

/-- `str(v)`.  The list rendering is abbreviated: in the modelled code paths a
list's string form is only fed to keyword-membership and `isdigit` tests,
which are false for any bracketed rendering. -/
def pyStrOf : PyVal → PyStr
  | .int n => intRepr n
  | .str s => s
  | .list _ => ['[', ']']

/-- Python truthiness of a settings value. -/
def pyTruthyVal : PyVal → Bool
  | .int n => n ≠ 0
  | .str s => !s.isEmpty
  | .list xs => !xs.isEmpty

/-- `int(v)` on a value; `.error` where Python raises. -/
def pyIntOfE : PyVal → Except Unit Int
  | .int n => .ok n
  | .str s => match pyParseInt s with
              | some n => .ok n
              | none => .error ()
  | .list _ => .error ()

/-- Iterating a Python value: a string yields its characters as length-one
strings, a list yields its items, an integer raises `TypeError`. -/
def pyIterE : PyVal → Except Unit (List PyStr)
  | .int _ => .error ()
  | .str s => .ok (s.map (fun c => [c]))
  | .list xs => .ok xs

/-- `needle in hay` substring test on Python strings. -/
def pyInStr (needle : PyStr) : PyStr → Bool
  | [] => needle.isEmpty
  | c :: rest => needle.isPrefixOf (c :: rest) || pyInStr needle rest

/-- `v + suffix` string concatenation; raises `TypeError` unless `v` is a string. -/
def pyAddStr (v : PyVal) (suffix : PyStr) : Except Unit PyStr :=
  match v with
  | .str s => .ok (s ++ suffix)
  | _ => .error ()

/-- Python's `all(...)` over a generator: short-circuits on the first `False`,
and a raise inside the generator propagates. -/
def pyAllE (p : PyStr → Except Unit Bool) : List PyStr → Except Unit Bool
  | [] => .ok true
  | x :: xs => do
    let b ← p x
    if b then pyAllE p xs else .ok false

/-- `s.split(' ')`: split on single spaces, preserving empty fields
(`[''.]` singleton for the empty string, like Python). -/
def pySplitSpace : List Char → List (List Char)
  | [] => [[]]
  | c :: rest =>
    if c = ' ' then [] :: pySplitSpace rest
    else
      match pySplitSpace rest with
      | t :: ts => (c :: t) :: ts
      | [] => [[c]]

/-- Split a byte/char buffer at the first CR-LF occurrence, as Python's
`buf.split('\r\n', 1)` does when the delimiter is present. -/
def splitCRLF : List Char → Option (List Char × List Char)
  | [] => none
  | [_] => none
  | c1 :: c2 :: rest =>
    if c1 = '\r' && c2 = '\n' then some ([], rest)
    else (splitCRLF (c2 :: rest)).map (fun p => (c1 :: p.1, p.2))

/-! ### Keyword constants (written as character lists) -/

def kPause : PyStr := ['p', 'a', 'u', 's', 'e']
def kInterval : PyStr := ['i', 'n', 't', 'e', 'r', 'v', 'a', 'l']
def kDatacode : PyStr := ['d', 'a', 't', 'a', 'c', 'o', 'd', 'e']
def kTimestamped : PyStr := ['t', 'i', 'm', 'e', 's', 't', 'a', 'm', 'p', 'e', 'd']
def kAll : PyStr := ['a', 'l', 'l']
def kIn : PyStr := ['i', 'n']
def kOut : PyStr := ['o', 'u', 't']
def kOff : PyStr := ['o', 'f', 'f']
def kTrueLow : PyStr := ['t', 'r', 'u', 'e']
def kFalseLow : PyStr := ['f', 'a', 'l', 's', 'e']
def kTrueCap : PyStr := ['T', 'r', 'u', 'e']
def kFalseCap : PyStr := ['F', 'a', 'l', 's', 'e']
def kZero : PyStr := ['0']
def kb : PyStr := ['b']
def kB : PyStr := ['B']
def kh : PyStr := ['h']
def kH : PyStr := ['H']
def kl : PyStr := ['l']
def kL : PyStr := ['L']
def kf : PyStr := ['f']
def kBaseid : PyStr := ['b', 'a', 's', 'e', 'i', 'd']
def kFrequency : PyStr := ['f', 'r', 'e', 'q', 'u', 'e', 'n', 'c', 'y']
def kGroup : PyStr := ['g', 'r', 'o', 'u', 'p']
def kQuiet : PyStr := ['q', 'u', 'i', 'e', 't']
def kDeviceids : PyStr := ['d', 'e', 'v', 'i', 'c', 'e', 'i', 'd', 's']
def kLength : PyStr := ['l', 'e', 'n', 'g', 't', 'h']
def kOK : PyStr := ['O', 'K']
def kQm : PyStr := ['?']
def k433 : PyStr := ['4', '3', '3']
def k868 : PyStr := ['8', '6', '8']
def k915 : PyStr := ['9', '1', '5']
def k15 : PyStr := ['1', '5']
def k210 : PyStr := ['2', '1', '0']
/-- Radio settings marker `" i"`. -/
def kMi : PyStr := [' ', 'i']
/-- Radio settings marker `" g"`. -/
def kMg : PyStr := [' ', 'g']
/-- Radio settings marker `" @ "`. -/
def kMat : PyStr := [' ', '@', ' ']
/-- Radio settings marker `" MHz"`. -/
def kMHz : PyStr := [' ', 'M', 'H', 'z']

/-! ### Python dictionaries as association lists -/

/-- A Python `dict` with string keys, modelled as an association list
(first occurrence of a key is its binding). -/
abbrev Dict := List (PyStr × PyVal)

def dictGet : Dict → PyStr → Option PyVal
  | [], _ => none
  | (k, v) :: rest, key => if k = key then some v else dictGet rest key

def dictSet : Dict → PyStr → PyVal → Dict
  | [], key, v => [(key, v)]
  | (k, w) :: rest, key, v =>
    if k = key then (k, v) :: rest else (k, w) :: dictSet rest key v

/-! ### Log entries

Each constructor stands for one `self._log.<level>(...)` call site of the
source, carrying the data that the emitted message interpolates. -/

inductive Log where
  /-- line 127: `debug(ref NEW FRAME : timestamp frame)` -/
  | newFrame (ref : Nat) (t : ℚ) (frame : PyStr)
  /-- lines 144-151: the per-frame debug block (timestamp/node/values/rssi) -/
  | decoded (ref : Nat) (frame : List ℚ)
  /-- line 176: `warning(ref Discarded RX frame 'string too short')` -/
  | warnShort (ref : Nat)
  /-- line 183: `warning(ref Discarded RX frame 'non-numerical content')` -/
  | warnNonNum (ref : Nat)
  /-- line 532: `info(ref Discard RX frame 'unreliable content')` -/
  | infoUnreliable (ref : Nat)
  /-- lines 212-213: `warning(ref RX data length ... not valid for datacodes ...)` -/
  | warnLenCodes (ref : Nat) (len : Nat)
  /-- lines 240-241: `warning(ref RX data length ... not valid for datacode ...)` -/
  | warnLenCode (ref : Nat) (len : Nat)
  /-- line 260: `warning(ref Unable to decode as values incorrect for datacode(s))` -/
  | warnDecodeFail (ref : Nat)
  /-- lines 299/597/754: `warning('<value>' is not a valid setting for <name>: <key>)` -/
  | warnSetting (v : PyVal) (key : PyStr)
  /-- line 302: `debug(Setting <name> <key>: <value>)` -/
  | debugSetting (key : PyStr) (v : PyVal)
  /-- lines 600/757: `info(Setting <name> <key>: <value>)` -/
  | infoSetting (key : PyStr) (v : PyVal)
  /-- line 499: `debug(<name> acknowledged command: f)` -/
  | ackCmd (f : PyStr)
  /-- line 503: `debug(<name> confirmed sent packet size: f)` -/
  | sentSize (f : PyStr)
  /-- line 512: `debug(<name> device settings updated: f)` -/
  | deviceSettingsUpdated (f : PyStr)
  /-- lines 807-808: `warning(<name> address <add> failed 5 attempted reads)` -/
  | twiWarnFailed (addr : PyStr)
  /-- line 810: `debug(<name> address <add> retried: <n> times)` -/
  | twiDebugRetried (addr : PyStr) (n : Nat)
  deriving DecidableEq

/-- The settings key a settings-related log entry names, if any. -/
def logKey : Log → Option PyStr
  | .warnSetting _ k => some k
  | .debugSetting k _ => some k
  | .infoSetting k _ => some k
  | _ => none

/-- The log entries of `logs` that name the settings key `key`. -/
def logsFor (key : PyStr) (logs : List Log) : List Log :=
  logs.filter (fun l => logKey l = some key)

/-! ### Codec facts (`emonhub_coder`, external to the sources)

Modelled from the spec: the codec facts provider (spec section 6) maps an
encoding symbol to its byte width and decode rule: `b`/`B` 1-byte
signed/unsigned, `h`/`H` 2-byte signed/unsigned, `l`/`L` 4-byte
signed/unsigned, `f` 4-byte IEEE float, little-endian.  Unknown symbols have
no width (the real `check_datacode` returns the falsy `False`, which the
interfacer's arithmetic treats as `0`). -/

/-- Modelled from the spec: `ehc.check_datacode(code)` — the byte width of an
encoding symbol (spec section 6, `byteWidth(symbol)`); `0` for non-symbols. -/
def check_datacode (s : PyStr) : Nat :=
  if s = kb || s = kB then 1
  else if s = kh || s = kH then 2
  else if s = kl || s = kL || s = kf then 4
  else 0

/-- Little-endian accumulation of byte values. -/
def uintLE (bytes : List Int) : Int := bytes.foldr (fun b acc => b + 256 * acc) 0

/-- Exact rational value of an IEEE binary32 bit pattern; `none` for the
infinity/NaN exponent. -/
def decodeFloat32 (u : Nat) : Option ℚ :=
  let sign : ℕ := u / 2 ^ 31
  let ex : ℕ := (u / 2 ^ 23) % 256
  let frac : ℕ := u % 2 ^ 23
  if ex = 255 then none
  else
    let mag : ℚ :=
      if ex = 0 then (frac : ℚ) / 2 ^ 149
      else if ex ≥ 150 then ((2 ^ 23 + frac : ℕ) : ℚ) * 2 ^ (ex - 150)
      else ((2 ^ 23 + frac : ℕ) : ℚ) / 2 ^ (150 - ex)
    some (if sign = 1 then -mag else mag)

/-- Modelled from the spec: `ehc.decode(datacode, frame)` — decode a byte list
under an encoding symbol (spec section 6, `decode(symbol, bytes)`): exact
byte count for the symbol's width, each byte in `[0, 256)`, little-endian,
signed/unsigned/float per symbol.  `none` stands for the raises of the real
decoder (`struct`/`bytearray` errors), which the caller catches. -/
def ehcDecode (dc : PyVal) (bytes : List Int) : Option ℚ :=
  match dc with
  | .str s =>
    if bytes.length = check_datacode s && bytes.all (fun b => 0 ≤ b && b < 256) then
      let u := uintLE bytes
      if s = kB then some (u : ℚ)
      else if s = kb then some ((if u ≥ 2 ^ 7 then u - 2 ^ 8 else u : Int) : ℚ)
      else if s = kH then some (u : ℚ)
      else if s = kh then some ((if u ≥ 2 ^ 15 then u - 2 ^ 16 else u : Int) : ℚ)
      else if s = kL then some (u : ℚ)
      else if s = kl then some ((if u ≥ 2 ^ 31 then u - 2 ^ 32 else u : Int) : ℚ)
      else if s = kf then decodeFloat32 u.toNat
      else none
    else none
  | _ => none

/-- Modelled from the spec: a node's entry in `ehc.nodelist` — an optional
per-value descriptor list (`'datacodes'`) and an optional single default
symbol (`'datacode'`) (spec section 6, `nodeDescriptor(nodeId)`). -/
structure NodeEntry where
  datacodes : Option (List PyStr)
  datacode : Option PyVal
  deriving DecidableEq

/-- The external node table: node-id string to optional entry. -/
abbrev Nodelist := PyStr → Option NodeEntry

/-! ### `EmonHubInterfacer._decode_frame` (lines 189-267) -/

deriving instance DecidableEq for Except

/-- Result of a decode pass: `.error` for a raise that escapes the method,
`.ok none` for a `return False` (discard), `.ok (some l)` for a decoded list. -/
abbrev DecRes := Except Unit (Option (List ℚ))

/-- The slice `[int(v) for v in data[bytepos:bytepos+size]]`; `none` when some
token fails `int()` (the exception is caught by the surrounding `try`). -/
def pySliceBytes (data : List PyStr) (bytepos size : Nat) : Option (List Int) :=
  ((data.drop bytepos).take size).mapM pyParseInt

/-- The value-decoding loop of `_decode_frame` (lines 248-263): `i` is the loop
index, the last argument the remaining iteration count, `bytepos` the byte
cursor.  `dcOf i` is the datacode for value `i` (constant in the single-code
branch, `datacodes[i]` in the per-value branch).  `none` models the
`except: return False` at lines 259-261. -/
def decodeLoop (dcOf : Nat → PyVal) (data : List PyStr) : Nat → Nat → Nat → Option (List ℚ)
  | _, _, 0 => some []
  | i, bytepos, Nat.succ k =>
    match pySliceBytes data bytepos (check_datacode (pyStrOf (dcOf i))) with
    | none => none
    | some bytes =>
      match ehcDecode (dcOf i) bytes with
      | none => none
      | some v =>
        (decodeLoop dcOf data (i + 1) (bytepos + check_datacode (pyStrOf (dcOf i))) k).map
          (v :: ·)

/-- `EmonHubInterfacer._decode_frame(ref, data)` (lines 189-267).
`dcSetting` is `self._settings['datacode']` (`none` = key missing, a
`KeyError`).  Notes on the modelled raises: a non-integral node id makes
`int(node)` at line 266 raise; in the no-datacode branch a token that fails
`float()` raises at line 233, and empty data leaves `count` unbound so line
250 raises; a zero-width datacode makes `len(data) % 0` raise at line 239.
In the no-datacode branch the `int`/`float` distinction of lines 233-236 is
value-preserving, so each value is its exact rational. -/
def decode_frame (nodelist : Nodelist) (dcSetting : Option PyVal) (ref : Nat)
    (data0 : List PyStr) : DecRes × List Log :=
  match data0 with
  | [] => (.error (), [])
  | node :: data =>
    match (nodelist node).bind NodeEntry.datacodes with
    | some dcs =>
      let sizes := dcs.map check_datacode
      if data.length ≠ sizes.sum then (.ok none, [.warnLenCodes ref data.length])
      else
        match decodeLoop (fun i => .str (dcs.getD i [])) data 0 0 dcs.length with
        | none => (.ok none, [.warnDecodeFail ref])
        | some vals =>
          match pyParseInt node with
          | none => (.error (), [])
          | some n => (.ok (some ((n : ℚ) :: vals)), [])
    | none =>
      let dcVal0 : Except Unit PyVal :=
        match nodelist node with
        | some e =>
          match e.datacode with
          | some v => .ok v
          | none => match dcSetting with
                    | some v => .ok v
                    | none => .error ()
        | none => match dcSetting with
                  | some v => .ok v
                  | none => .error ()
      match dcVal0 with
      | .error () => (.error (), [])
      | .ok dcvRaw =>
        let dcv := if pyEq dcvRaw (.str kZero) then .int 0 else dcvRaw
        if ¬ pyTruthyVal dcv then
          match data.mapM pyParseFloat with
          | none => (.error (), [])
          | some qs =>
            if qs.isEmpty then (.error (), [])
            else
              match pyParseInt node with
              | none => (.error (), [])
              | some n => (.ok (some ((n : ℚ) :: qs)), [])
        else
          let w := check_datacode (pyStrOf dcv)
          if w = 0 then (.error (), [])
          else if data.length % w ≠ 0 then (.ok none, [.warnLenCode ref data.length])
          else
            match decodeLoop (fun _ => dcv) data 0 0 (data.length / w) with
            | none => (.ok none, [.warnDecodeFail ref])
            | some vals =>
              match pyParseInt node with
              | none => (.error (), [])
              | some n => (.ok (some ((n : ℚ) :: vals)), [])

/-! ### `_validate_frame` (generic lines 163-187, Jee lines 521-552) -/

/-- A validator returns the validated token list (empty list models both
Python's `return False` and an empty survivor list — both falsy to the
caller) together with the RSSI it extracted (`self.rssi`; `none` = `False`,
`some r` = the integer; note `some 0` is falsy when later re-appended). -/
abbrev ValRes := (Except Unit (List PyStr × Option Int)) × List Log

/-- `EmonHubInterfacer._validate_frame(ref, received)` (lines 163-187):
reject fewer than two tokens, reject any token that fails `float()`. -/
def validate_frame (ref : Nat) (received : List PyStr) : ValRes :=
  if received.length < 2 then (.ok ([], none), [.warnShort ref])
  else if received.all (fun v => (pyParseFloat v).isSome) then (.ok (received, none), [])
  else (.ok ([], none), [.warnNonNum ref])

/-- `str(x)[0] == '(' and str(x)[-1] == ')'` on a token; indexing an empty
token raises `IndexError`. -/
def parenCheckE (s : PyStr) : Except Unit Bool :=
  match s with
  | [] => .error ()
  | c :: _ => .ok (c = '(' && s.getLastD 'x' = ')')

/-- Lines 535-552 of `EmonHubJeeInterfacer._validate_frame`: strip a leading
`OK`, extract a trailing parenthesized RSSI (returning early, skipping the
parent's checks), otherwise run the parent validation. -/
def jeeValidateRest (ref : Nat) (received : List PyStr) : ValRes :=
  let received := if received.headD [] = kOK then received.drop 1 else received
  match received.getLast? with
  | none => (.error (), [])
  | some lastTok =>
    match parenCheckE lastTok with
    | .error () => (.error (), [])
    | .ok true =>
      match pyParseInt ((lastTok.drop 1).dropLast) with
      | none => (.error (), [])
      | some r => (.ok (received.dropLast, some r), [])
    | .ok false =>
      match validate_frame ref received with
      | (.ok (v, _), lg) =>
        if v.isEmpty then (.ok ([], none), lg) else (.ok (received, none), lg)
      | (e, lg) => (e, lg)

/-- `EmonHubJeeInterfacer._validate_frame(ref, received)` (lines 521-552),
including the line-531 discard of `?`-echo frames with an RSSI-shaped tail. -/
def jee_validate_frame (ref : Nat) (received : List PyStr) : ValRes :=
  match received with
  | [] => (.error (), [])
  | r0 :: _ =>
    if r0 = kQm then
      match parenCheckE (received.getLastD []) with
      | .error () => (.error (), [])
      | .ok true => (.ok ([], none), [.infoUnreliable ref])
      | .ok false => jeeValidateRest ref received
    else jeeValidateRest ref received

/-! ### `EmonHubInterfacer._process_frame` (lines 98-161) -/

abbrev Validator := Nat → List PyStr → ValRes

/-- Line 113-114: `'pause' in self._settings and str.lower(self._settings['pause'])
in ['all', 'in']`; `str.lower` on a non-string raises `TypeError`. -/
def pauseInE (settings : Dict) : Except Unit Bool :=
  match dictGet settings kPause with
  | none => .ok false
  | some (.str s) => .ok (pyLower s = kAll || pyLower s = kIn)
  | some _ => .error ()

/-- Lines 157-158: `'pause' in self._settings and str(self._settings['pause']).lower()
in ['all', 'out']` (total: `str()` first). -/
def pauseOutB (settings : Dict) : Bool :=
  match dictGet settings kPause with
  | none => false
  | some v => pyLower (pyStrOf v) = kAll || pyLower (pyStrOf v) = kOut

/-- Lines 119-154 of `_process_frame`: everything between the two pause
checks — assign the next reference number, log the frame, tokenize, run the
transport's validator, decode, and assemble
`[timestamp] + decoded + rssi? + [ref]` (the RSSI is appended only when
truthy, line 149).  Returns (new counter, result, logs).  `self.rssi` is
threaded locally: the object field is reset at line 133 on every call and
read nowhere else. -/
def processCore (validate : Validator) (nodelist : Nodelist) (dcSetting : Option PyVal)
    (counter : Nat) (frame : PyStr) (t : ℚ) :
    Nat × Except Unit (Option (List ℚ)) × List Log :=
  let ref := counter + 1
  let logs0 : List Log := [.newFrame ref t frame]
  let tokens := pySplitSpace (pyStripWS frame)
  match validate ref tokens with
  | (.error (), lg) => (ref, .error (), logs0 ++ lg)
  | (.ok (validated, rssi), lg) =>
    let logs1 := logs0 ++ lg
    if validated.isEmpty then (ref, .ok none, logs1)
    else
      match decode_frame nodelist dcSetting ref validated with
      | (.error (), lg2) => (ref, .error (), logs1 ++ lg2)
      | (.ok none, lg2) => (ref, .ok none, logs1 ++ lg2)
      | (.ok (some dec), lg2) =>
        let rtail : List ℚ :=
          match rssi with
          | some r => if r ≠ 0 then [(r : ℚ)] else []
          | none => []
        let fr := t :: dec ++ rtail ++ [(ref : ℚ)]
        (ref, .ok (some fr), logs1 ++ lg2 ++ [.decoded ref fr])

/-- `EmonHubInterfacer._process_frame(frame, timestamp)` (lines 98-161).
`t` is the effective timestamp (the caller-supplied one, or — when the
caller's was falsy — the current time substituted at lines 119-120).
The final pause check (lines 156-159) only changes a successfully decoded
result into `None`; discards and raises have already returned. -/
def process_frame (validate : Validator) (nodelist : Nodelist) (settings : Dict)
    (counter : Nat) (frame : PyStr) (t : ℚ) :
    Nat × Except Unit (Option (List ℚ)) × List Log :=
  match pauseInE settings with
  | .error () => (counter, .error (), [])
  | .ok true => (counter, .ok none, [])
  | .ok false =>
    let res := processCore validate nodelist (dictGet settings kDatacode) counter frame t
    match res with
    | (c', .ok (some fr), lg) =>
      (c', if pauseOutB settings then .ok none else .ok (some fr), lg)
    | other => other

/-! ### `EmonHubInterfacer.set` (lines 269-302) -/

/-- The interfacer's initial `_defaults` (line 51): note `interval` is the
Python integer `0`, the rest strings. -/
def baseDefaults : Dict :=
  [(kPause, .str kOff), (kInterval, .int 0), (kDatacode, .str kZero),
   (kTimestamped, .str kFalseCap)]

/-- The `_defaults` after `EmonHubJeeInterfacer.__init__`'s update (line 462):
`datacode` becomes `'h'`. -/
def jeeBaseDefaults : Dict :=
  [(kPause, .str kOff), (kInterval, .int 0), (kDatacode, .str kh),
   (kTimestamped, .str kFalseCap)]

/-- The `_defaults` after `EmonHubTwiInterfacer.__init__`'s update (line 727):
`interval` becomes `5`, `datacode` `'h'`. -/
def twiBaseDefaults : Dict :=
  [(kPause, .str kOff), (kInterval, .int 5), (kDatacode, .str kh),
   (kTimestamped, .str kFalseCap)]

/-- The per-key validation predicates of `set` (lines 290-297). -/
def checkSetting (key : PyStr) (v : PyVal) : Bool :=
  if key = kPause then [kAll, kIn, kOut, kOff].contains (pyLower (pyStrOf v))
  else if key = kInterval then pyIsDigit (pyStrOf v)
  else if key = kDatacode then [kZero, kb, kB, kh, kH, kL, kl, kf].contains (pyStrOf v)
  else if key = kTimestamped then [kTrueLow, kFalseLow].contains (pyLower (pyStrOf v))
  else false

/-- `self._settings[key] == setting` guarded by `key in self._settings`
(line 288). -/
def storedEqB (settings : Dict) (key : PyStr) (cand : PyVal) : Bool :=
  match dictGet settings key with
  | some v => pyEq v cand
  | none => false

/-- Validate-then-assign of one `set` iteration (lines 290-302), as the
assignment it performs (`some` = new value stored) plus its log delta. -/
def setApply (key : PyStr) (cand : PyVal) : Option PyVal × List Log :=
  if checkSetting key cand then (some cand, [.debugSetting key cand])
  else (none, [.warnSetting cand key])

/-- One full `set` iteration for `key` with effective candidate `cand`
(lines 288-302): skip silently when the candidate equals the stored value,
otherwise validate and assign or warn. -/
def setStep (settings : Dict) (key : PyStr) (cand : PyVal) : Option PyVal × List Log :=
  if storedEqB settings key cand then (none, []) else setApply key cand

/-- Apply an optional assignment to the settings dict. -/
def applyAsg (s : Dict) (key : PyStr) : Option PyVal → Dict
  | some v => dictSet s key v
  | none => s

/-- The `for key, setting in self._defaults.iteritems()` loop of `set`
(lines 283-302): for each recognized key the candidate is `kwargs[key]` when
present, else the built-in default. -/
def setFold : List (PyStr × PyVal) → Dict → Dict → List Log → Dict × List Log
  | [], settings, _, logs => (settings, logs)
  | (k, d) :: rest, settings, kwargs, logs =>
    let cand := (dictGet kwargs k).getD d
    let (asg, delta) := setStep settings k cand
    setFold rest (applyAsg settings k asg) kwargs (logs ++ delta)

/-- `EmonHubInterfacer.set(**kwargs)` over a given defaults table. -/
def interfacerSet (defaults : Dict) (settings : Dict) (kwargs : Dict) : Dict × List Log :=
  setFold defaults settings kwargs []

/-! ### `EmonHubJeeInterfacer` settings (lines 461-606) -/

/-- `self._jee_settings` (line 470). -/
def jeeSettingsDefaults : Dict :=
  [(kBaseid, .str k15), (kFrequency, .str k433), (kGroup, .str k210),
   (kQuiet, .str kTrueCap)]

/-- `self._jee_prefix` (line 471): the marker letter of each radio key in the
device's settings string. -/
def jeeMarkerOf (key : PyStr) : PyStr :=
  if key = kBaseid then ['i']
  else if key = kFrequency then ['@', ' ']
  else if key = kGroup then ['g']
  else ['q']

/-- The default of a radio key in `_jee_settings`. -/
def jeeDefaultOf (key : PyStr) : PyVal :=
  (dictGet jeeSettingsDefaults key).getD (.str [])

/-- `all(i in self.info[1] for i in (" i", " g", " @ ", " MHz"))` (line 474):
a genuine all-four-markers test. -/
def allJeeMarkers (s : PyStr) : Bool :=
  pyInStr kMi s && pyInStr kMg s && pyInStr kMat s && pyInStr kMHz s

/-- Lines 473-475 of `EmonHubJeeInterfacer.__init__`: pre-load the radio
defaults into the settings snapshot when the device info string carries all
four field markers. -/
def jeePreload (info1 : PyStr) (settings : Dict) : Dict :=
  if allJeeMarkers info1 then
    jeeSettingsDefaults.foldl (fun s kv => dictSet s kv.1 kv.2) settings
  else settings

/-- One iteration of `EmonHubJeeInterfacer.set` (lines 563-603) for radio key
`key` with effective candidate `cand`.  Returns the assignment made to the
key (if any), the command string written to the device (if any) and the log
delta; `.error` models an uncaught raise (e.g. `int()` on a garbage
candidate, or `setting + 'i'` on an integer candidate).
The confirmation test at line 576 repeats the truthiness slip of line 510:
`" i" and " g" and " @ " and " MHz" in self.info[1]` evaluates to
`" MHz" in self.info[1]`. -/
def jeeStep (info1 : PyStr) (settings : Dict) (key : PyStr) (cand : PyVal) :
    Except Unit (Option PyVal × Option PyStr × List Log) :=
  let skipOrChk : Option Bool :=
    if storedEqB settings key cand then
      if pyInStr kMHz info1 then
        if pyInStr (jeeMarkerOf key ++ pyStrOf cand) info1 then none
        else some true
      else none
    else some false
  match skipOrChk with
  | none => .ok (none, none, [])
  | some chk =>
    if key = kBaseid then do
      let n ← pyIntOfE cand
      if 1 ≤ n ∧ n ≤ 26 then do
        let cmd ← pyAddStr cand ['i']
        .ok (some cand, some cmd, [.infoSetting key cand])
      else .ok (none, none, [.warnSetting cand key])
    else if key = kFrequency then
      if pyEq cand (.str k433) || pyEq cand (.str k868) || pyEq cand (.str k915) then
        .ok (some cand, some ((pyStrOf cand).take 1 ++ ['b']), [.infoSetting key cand])
      else .ok (none, none, [.warnSetting cand key])
    else if key = kGroup then do
      let n ← pyIntOfE cand
      if 0 ≤ n ∧ n ≤ 212 then do
        let cmd ← pyAddStr cand ['g']
        .ok (some cand, some cmd, [.infoSetting key cand])
      else .ok (none, none, [.warnSetting cand key])
    else if key = kQuiet then
      let capped := pyCapitalize (pyStrOf cand)
      if capped = kTrueCap || capped = kFalseCap then
        let v : PyStr := if capped = kTrueCap then ['1'] else ['0']
        if chk && pyInStr (jeeMarkerOf key ++ v) info1 then .ok (none, none, [])
        else .ok (some (.str capped), some (v ++ ['q']), [.infoSetting key (.str capped)])
      else .ok (none, none, [.warnSetting cand key])
    else .ok (none, none, [.warnSetting cand key])

/-- `EmonHubJeeInterfacer.set(**kwargs)` (lines 554-606): the four radio keys
in turn, then the parent `set` (line 606) over the Jee defaults table.
Returns the new settings, the command strings written to the device, and
the logs. -/
def jeeSet (info1 : PyStr) (settings : Dict) (kwargs : Dict) :
    Except Unit (Dict × List PyStr × List Log) :=
  match jeeStep info1 settings kBaseid
      ((dictGet kwargs kBaseid).getD (jeeDefaultOf kBaseid)) with
  | .error () => .error ()
  | .ok (a1, c1, l1) =>
    match jeeStep info1 (applyAsg settings kBaseid a1) kFrequency
        ((dictGet kwargs kFrequency).getD (jeeDefaultOf kFrequency)) with
    | .error () => .error ()
    | .ok (a2, c2, l2) =>
      match jeeStep info1 (applyAsg (applyAsg settings kBaseid a1) kFrequency a2) kGroup
          ((dictGet kwargs kGroup).getD (jeeDefaultOf kGroup)) with
      | .error () => .error ()
      | .ok (a3, c3, l3) =>
        match jeeStep info1
            (applyAsg (applyAsg (applyAsg settings kBaseid a1) kFrequency a2) kGroup a3)
            kQuiet ((dictGet kwargs kQuiet).getD (jeeDefaultOf kQuiet)) with
        | .error () => .error ()
        | .ok (a4, c4, l4) =>
          match interfacerSet jeeBaseDefaults
              (applyAsg
                (applyAsg (applyAsg (applyAsg settings kBaseid a1) kFrequency a2) kGroup a3)
                kQuiet a4) kwargs with
          | (s5, l5) =>
            .ok (s5, [c1, c2, c3, c4].filterMap id, l1 ++ l2 ++ l3 ++ l4 ++ l5)

/-! ### `EmonHubTwiInterfacer` settings (lines 735-760) -/

/-- `self._twi_settings` (line 735): both defaults are the empty string. -/
def twiSettingsDefaults : Dict := [(kDeviceids, .str []), (kLength, .str [])]

/-- One iteration of `EmonHubTwiInterfacer.set` (lines 742-757).  There is no
equal-value skip here; validation runs on every call.  `int('')` on the
empty default of `length` raises, uncaught. -/
def twiStep (_settings : Dict) (key : PyStr) (cand : PyVal) :
    Except Unit (Option PyVal × List Log) := do
  if key = kDeviceids then do
    let items ← pyIterE cand
    let b1 ← pyAllE (fun i => do
      let n ← pyIntOfE (.str i)
      pure (3 ≤ n)) items
    if b1 then do
      let b2 ← pyAllE (fun i => do
        let n ← pyIntOfE (.str i)
        pure (n ≤ 119)) items
      if b2 then .ok (some cand, [.infoSetting key cand])
      else .ok (none, [.warnSetting cand key])
    else .ok (none, [.warnSetting cand key])
  else if key = kLength then do
    let n ← pyIntOfE cand
    if 0 ≤ n ∧ n ≤ 32 then .ok (some cand, [.infoSetting key cand])
    else .ok (none, [.warnSetting cand key])
  else .ok (none, [.warnSetting cand key])

/-- `EmonHubTwiInterfacer.set(**kwargs)` (lines 737-760): the two bus keys,
then the parent `set` over the Twi defaults table. -/
def twiSet (settings : Dict) (kwargs : Dict) : Except Unit (Dict × List Log) :=
  match twiStep settings kDeviceids ((dictGet kwargs kDeviceids).getD (.str [])) with
  | .error () => .error ()
  | .ok (a1, l1) =>
    match twiStep (applyAsg settings kDeviceids a1) kLength
        ((dictGet kwargs kLength).getD (.str [])) with
    | .error () => .error ()
    | .ok (a2, l2) =>
      match interfacerSet twiBaseDefaults
          (applyAsg (applyAsg settings kDeviceids a1) kLength a2) kwargs with
      | (s3, l3) => .ok (s3, l1 ++ l2 ++ l3)

/-! ### Line framing: `EmonHubSerialInterfacer.read` (lines 378-402) and
`EmonHubSocketInterfacer.read` (lines 674-707) -/

/-- The framing portion of `EmonHubSerialInterfacer.read` (lines 385-396):
append the newly read bytes; if the buffer contains CR-LF, the frame is the
buffer with its final two characters removed (`self._rx_buf[:-2]`) and the
buffer is reset to the empty string; otherwise no frame, data retained. -/
def serialReadStep (buf incoming : PyStr) : Option PyStr × PyStr :=
  let b := buf ++ incoming
  if (splitCRLF b).isSome then (some (b.dropLast.dropLast), [])
  else (none, b)

/-- The framing portion of `EmonHubSocketInterfacer.read` (lines 692-700):
append the received bytes; if the buffer contains CR-LF, split at the first
occurrence (`split('\r\n', 1)`), the frame being the part before it and the
buffer the remainder after it; otherwise no frame, data retained. -/
def socketReadStep (buf incoming : PyStr) : Option PyStr × PyStr :=
  let b := buf ++ incoming
  match splitCRLF b with
  | some (f, rest) => (some f, rest)
  | none => (none, b)

/-! ### `EmonHubJeeInterfacer.read` (lines 477-519) -/

/-- `EmonHubJeeInterfacer.read()` (lines 477-519): serial-style framing, then
the information-message discards, then the device-settings consumption, then
`_process_frame` with the Jee validator.  Returns
(new buffer, new `info[1]`, new counter, result, logs).
Line 510's condition `" i" and " g" and " @ " and " MHz" in f` is, by
Python operator precedence and truthiness, equal to `" MHz" in f`: the
three leading string literals are truthy constants. -/
def jeeRead (nodelist : Nodelist) (settings : Dict) (counter : Nat) (info1 : PyStr)
    (buf incoming : PyStr) (t : ℚ) :
    PyStr × PyStr × Nat × Except Unit (Option (List ℚ)) × List Log :=
  let b := buf ++ incoming
  if (splitCRLF b).isNone then (b, info1, counter, .ok none, [])
  else
    let f := b.dropLast.dropLast
    match f with
    | [] => ([], info1, counter, .error (), [])
    | c :: _ =>
      if c = '>' then ([], info1, counter, .ok none, [.ackCmd f])
      else if f.take 3 = [' ', '-', '>'] then ([], info1, counter, .ok none, [.sentSize f])
      else if c = '\x01' then ([], info1, counter, .ok none, [])
      else if pyInStr kMHz f then ([], f, counter, .ok none, [.deviceSettingsUpdated f])
      else
        let (c', r, lg) := process_frame jee_validate_frame nodelist settings counter f t
        ([], info1, c', r, lg)

/-! ### `EmonHubTwiInterfacer.read` (lines 762-810) -/

/-- The bounded-retry loop of `EmonHubTwiInterfacer.read` (lines 792-799):
`att i` is the outcome of the `(i+1)`-th `read_i2c_block_data` attempt
(`none` = the attempt raised).  The first argument is the current `retry`
counter, the last the remaining iterations of `while retry < max_retry`.
Returns the final `retry` value and `frame` (still `[]` when every attempt
failed). -/
def twiRetry (att : Nat → Option (List Int)) : Nat → Nat → Nat × List Int
  | retry, 0 => (retry, [])
  | retry, Nat.succ k =>
    match att retry with
    | some f => (retry, f)
    | none => twiRetry att (retry + 1) k

/-- `' '.join(map(str, frame))` over the block's byte values. -/
def joinSpace (xs : List PyStr) : PyStr := List.intercalate [' '] xs

/-- The body of the per-device loop of `EmonHubTwiInterfacer.read`
(lines 786-810) for device-id string `b`: compute `add = int(b)` and
`len = int(self._settings['length'])` (both may raise), run the retry loop,
and when a frame was read, format `str(b) + ' ' + join(values)` and put
`self._process_frame(f, t)` on the queue — unconditionally, with no `None`
check.  Returns (new counter, queue puts, logs). -/
def twiReadDevice (nodelist : Nodelist) (settings : Dict) (counter : Nat)
    (att : Nat → Option (List Int)) (b : PyStr) (t : ℚ) :
    Except Unit (Nat × List (Option (List ℚ)) × List Log) :=
  match pyIntOfE (.str b) with
  | .error () => .error ()
  | .ok _add =>
    match (match dictGet settings kLength with
           | some v => pyIntOfE v
           | none => .error ()) with
    | .error () => .error ()
    | .ok _len =>
      match twiRetry att 0 5 with
      | (retry, frame) =>
        if frame.isEmpty then
          .ok (counter, [],
            if retry ≠ 0 then
              if retry = 5 then [.twiWarnFailed b] else [.twiDebugRetried b retry]
            else [])
        else
          match process_frame validate_frame nodelist settings counter
              (b ++ [' '] ++ joinSpace (frame.map intRepr)) t with
          | (_, .error (), _) => .error ()
          | (c', .ok r, lg) =>
            .ok (c', [r],
              lg ++
                if retry ≠ 0 then
                  if retry = 5 then [.twiWarnFailed b] else [.twiDebugRetried b retry]
                else [])

/-- `EmonHubTwiInterfacer.read()` (lines 762-810): return immediately while
the interval has not elapsed; otherwise broadcast the trigger byte to every
device (best-effort, no observable effect here), then run the per-device
bounded-retry read loop.  `attOf b` is the attempt oracle for device `b`. -/
def twiRead (nodelist : Nodelist) (settings : Dict) (counter : Nat)
    (attOf : PyStr → Nat → Option (List Int)) (t lastTs : ℚ) :
    Except Unit (Nat × List (Option (List ℚ)) × List Log) := do
  let ival ← match dictGet settings kInterval with
             | some v => pyIntOfE v
             | none => .error ()
  if t - lastTs < (ival : ℚ) then .ok (counter, [], [])
  else do
    let devsV ← match dictGet settings kDeviceids with
                | some v => .ok v
                | none => .error ()
    let devs ← pyIterE devsV
    devs.foldlM (fun acc b => do
      let (c, puts, logs) := acc
      let (c', puts', logs') ← twiReadDevice nodelist settings c (attOf b) b t
      .ok (c', puts ++ puts', logs ++ logs')) (counter, [], [])

/-- `EmonHubInterfacer.run`'s single loop iteration (lines 81-87): the
values returned by a buffered reader's `read()` are enqueued only when not
`None`. -/
def runStepPuts (values : Option (List ℚ)) : List (List ℚ) :=
  match values with
  | some v => [v]
  | none => []

/-! ### Concrete instances used by the statements below -/

/-- An empty node table: no node has node-specific descriptors. -/
def nodelistEmpty : Nodelist := fun _ => none

/-- A node table in which node `5` carries the per-value descriptor list
`['b']` (one 1-byte signed value, total width 1). -/
def nodelistB : Nodelist :=
  fun s => if s = ['5'] then some ⟨some [kb], none⟩ else none

/-- A valid Twi reader settings snapshot: pause off, block length 2. -/
def twiSettingsLen2 : Dict :=
  [(kPause, .str kOff), (kInterval, .int 5), (kDatacode, .str kh),
   (kLength, .str ['2'])]

/-- A Twi reader settings snapshot with input paused (`pause = 'in'`). -/
def twiSettingsPauseIn : Dict :=
  [(kPause, .str kIn), (kInterval, .int 5), (kDatacode, .str kh),
   (kLength, .str ['2'])]

/-! ## Helper lemmas -/

theorem dictGet_dictSet_self (d : Dict) (k : PyStr) (v : PyVal) :
    dictGet (dictSet d k v) k = some v := by
  induction d with
  | nil => simp [dictSet, dictGet]
  | cons p rest ih =>
    by_cases h : p.1 = k
    · simp [dictSet, dictGet, h]
    · simp [dictSet, dictGet, h, ih]

theorem dictGet_dictSet_ne (d : Dict) (k k' : PyStr) (v : PyVal) (h : k ≠ k') :
    dictGet (dictSet d k v) k' = dictGet d k' := by
  induction d with
  | nil => simp [dictSet, dictGet, h]
  | cons p rest ih =>
    by_cases hp : p.1 = k
    · simp [dictSet, dictGet, hp, h]
    · simp [dictSet, dictGet, hp, ih]

theorem dictGet_applyAsg_ne (s : Dict) (k k' : PyStr) (asg : Option PyVal) (h : k ≠ k') :
    dictGet (applyAsg s k asg) k' = dictGet s k' := by
  cases asg with
  | none => rfl
  | some v => exact dictGet_dictSet_ne s k k' v h

theorem logsFor_append (key : PyStr) (l1 l2 : List Log) :
    logsFor key (l1 ++ l2) = logsFor key l1 ++ logsFor key l2 := by
  simp [logsFor, List.filter_append]

theorem setStep_logsFor_ne (s : Dict) (k : PyStr) (c : PyVal) (key : PyStr) (h : k ≠ key) :
    logsFor key (setStep s k c).2 = [] := by
  unfold setStep setApply
  split
  · rfl
  · split <;> simp [logsFor, logKey, h]

theorem setFold_get_notmem :
    ∀ (pairs : List (PyStr × PyVal)) (s kw : Dict) (logs : List Log) (key : PyStr),
      (∀ p ∈ pairs, p.1 ≠ key) →
      dictGet (setFold pairs s kw logs).1 key = dictGet s key := by
  intro pairs
  induction pairs with
  | nil => intro s kw logs key _; rfl
  | cons p rest ih =>
    intro s kw logs key h
    obtain ⟨k, d⟩ := p
    have hk : k ≠ key := h (k, d) (List.mem_cons_self _ _)
    have hrec := ih (applyAsg s k (setStep s k ((dictGet kw k).getD d)).1) kw
      (logs ++ (setStep s k ((dictGet kw k).getD d)).2) key
      (fun q hq => h q (List.mem_cons_of_mem _ hq))
    calc dictGet (setFold ((k, d) :: rest) s kw logs).1 key
        = dictGet (applyAsg s k (setStep s k ((dictGet kw k).getD d)).1) key := hrec
      _ = dictGet s key := dictGet_applyAsg_ne _ _ _ _ hk

theorem setFold_logsFor_notmem :
    ∀ (pairs : List (PyStr × PyVal)) (s kw : Dict) (logs : List Log) (key : PyStr),
      (∀ p ∈ pairs, p.1 ≠ key) →
      logsFor key (setFold pairs s kw logs).2 = logsFor key logs := by
  intro pairs
  induction pairs with
  | nil => intro s kw logs key _; rfl
  | cons p rest ih =>
    intro s kw logs key h
    obtain ⟨k, d⟩ := p
    have hk : k ≠ key := h (k, d) (List.mem_cons_self _ _)
    have hrec := ih (applyAsg s k (setStep s k ((dictGet kw k).getD d)).1) kw
      (logs ++ (setStep s k ((dictGet kw k).getD d)).2) key
      (fun q hq => h q (List.mem_cons_of_mem _ hq))
    calc logsFor key (setFold ((k, d) :: rest) s kw logs).2
        = logsFor key (logs ++ (setStep s k ((dictGet kw k).getD d)).2) := hrec
      _ = logsFor key logs := by
          rw [logsFor_append, setStep_logsFor_ne s k _ key hk, List.append_nil]

theorem storedEqB_congr (s s' : Dict) (key : PyStr) (cand : PyVal)
    (h : dictGet s' key = dictGet s key) :
    storedEqB s' key cand = storedEqB s key cand := by
  unfold storedEqB
  rw [h]

theorem setStep_congr (s s' : Dict) (key : PyStr) (c : PyVal)
    (h : dictGet s' key = dictGet s key) :
    setStep s' key c = setStep s key c := by
  unfold setStep
  rw [storedEqB_congr s s' key c h]

theorem dictGet_applyAsg (s : Dict) (key : PyStr) (asg : Option PyVal) :
    dictGet (applyAsg s key asg) key = match asg with
      | some v => some v
      | none => dictGet s key := by
  cases asg with
  | none => rfl
  | some v => exact dictGet_dictSet_self s key v

/-- The effect of the `set` loop on one recognized key `key` (with default
`d`): the final stored value is the one `key`'s own iteration assigns, and
the log entries naming `key` are exactly that iteration's. -/
theorem setFold_spec_own :
    ∀ (pairs : List (PyStr × PyVal)) (s kw : Dict) (logs : List Log) (key : PyStr) (d : PyVal),
      (key, d) ∈ pairs → (pairs.map Prod.fst).Nodup →
      dictGet (setFold pairs s kw logs).1 key
        = dictGet (applyAsg s key (setStep s key ((dictGet kw key).getD d)).1) key ∧
      logsFor key (setFold pairs s kw logs).2
        = logsFor key logs ++ logsFor key (setStep s key ((dictGet kw key).getD d)).2 := by
  intro pairs
  induction pairs with
  | nil => intro s kw logs key d hmem _; exact absurd hmem (List.not_mem_nil _)
  | cons q rest ih =>
    intro s kw logs key d hmem hnd
    obtain ⟨k, dv⟩ := q
    have hnd1 : k ∉ rest.map Prod.fst := (List.nodup_cons.mp hnd).1
    have hnd' := (List.nodup_cons.mp hnd).2
    by_cases hk : key = k
    · subst hk
      have hd : d = dv := by
        rcases List.mem_cons.mp hmem with h | h
        · exact congrArg Prod.snd h
        · exact absurd (List.mem_map_of_mem Prod.fst h) hnd1
      subst hd
      have hnot : ∀ p ∈ rest, p.1 ≠ key := fun p hp hcon =>
        hnd1 (hcon ▸ List.mem_map_of_mem Prod.fst hp)
      constructor
      · exact setFold_get_notmem rest _ kw _ key hnot
      · have := setFold_logsFor_notmem rest
          (applyAsg s key (setStep s key ((dictGet kw key).getD d)).1) kw
          (logs ++ (setStep s key ((dictGet kw key).getD d)).2) key hnot
        exact this.trans (logsFor_append key logs _)
    · have hmem' : (key, d) ∈ rest := by
        rcases List.mem_cons.mp hmem with h | h
        · exact absurd (congrArg Prod.fst h) hk
        · exact h
      have hget : dictGet (applyAsg s k (setStep s k ((dictGet kw k).getD dv)).1) key
          = dictGet s key := dictGet_applyAsg_ne _ _ _ _ (fun hc => hk hc.symm)
      have hstep : setStep (applyAsg s k (setStep s k ((dictGet kw k).getD dv)).1) key
          ((dictGet kw key).getD d) = setStep s key ((dictGet kw key).getD d) :=
        setStep_congr _ _ _ _ hget
      have hrec := ih (applyAsg s k (setStep s k ((dictGet kw k).getD dv)).1) kw
        (logs ++ (setStep s k ((dictGet kw k).getD dv)).2) key d hmem' hnd'
      constructor
      · refine hrec.1.trans ?_
        rw [hstep, dictGet_applyAsg, dictGet_applyAsg]
        cases (setStep s key ((dictGet kw key).getD d)).1 with
        | none => exact hget
        | some v => rfl
      · refine hrec.2.trans ?_
        rw [hstep, logsFor_append, setStep_logsFor_ne s k _ key (fun hc => hk hc.symm),
          List.append_nil]

/-- `split('\r\n', 1)` really is the first-occurrence split: prefixing a
CR-LF-free chunk `a` in front of the delimiter yields `(a, b)`. -/
theorem splitCRLF_append (b : List Char) :
    ∀ a : List Char, splitCRLF a = none →
      splitCRLF (a ++ '\r' :: '\n' :: b) = some (a, b) := by
  intro a
  induction a with
  | nil => intro _; rfl
  | cons c a ih =>
    intro h
    cases a with
    | nil =>
      show splitCRLF (c :: '\r' :: '\n' :: b) = some ([c], b)
      have hcc : (c = '\r' && ('\r' : Char) = '\n') = false := by
        simp
      simp [splitCRLF, hcc]
    | cons c2 a2 =>
      have hsplit : splitCRLF (c :: c2 :: a2)
          = if c = '\r' && c2 = '\n' then some ([], a2)
            else (splitCRLF (c2 :: a2)).map (fun p => (c :: p.1, p.2)) := rfl
      rw [hsplit] at h
      by_cases hc : (c = '\r' && c2 = '\n') = true
      · rw [if_pos hc] at h
        exact absurd h (by simp)
      · have hcf : (c = '\r' && c2 = '\n') = false := by
          cases hcv : (c = '\r' && c2 = '\n') with
          | true => exact absurd hcv hc
          | false => rfl
        rw [if_neg (by simp [hcf])] at h
        have htail : splitCRLF (c2 :: a2) = none := by
          cases hcv : splitCRLF (c2 :: a2) with
          | none => rfl
          | some p => rw [hcv] at h; exact absurd h (by simp)
        have hrec := ih htail
        show splitCRLF (c :: (c2 :: a2 ++ '\r' :: '\n' :: b)) = some (c :: c2 :: a2, b)
        have hsplit2 : splitCRLF (c :: (c2 :: a2 ++ '\r' :: '\n' :: b))
            = if c = '\r' && c2 = '\n' then some ([], a2 ++ '\r' :: '\n' :: b)
              else (splitCRLF (c2 :: a2 ++ '\r' :: '\n' :: b)).map
                (fun p => (c :: p.1, p.2)) := rfl
        rw [hsplit2, if_neg (by simp [hcf]), hrec]
        rfl

/-- The decode loop yields exactly as many values as its iteration count. -/
theorem decodeLoop_length (dcOf : Nat → PyVal) (data : List PyStr) :
    ∀ (k i p : Nat) (vs : List ℚ), decodeLoop dcOf data i p k = some vs → vs.length = k := by
  intro k
  induction k with
  | zero =>
    intro i p vs h
    simp only [decodeLoop] at h
    cases h
    rfl
  | succ k ih =>
    intro i p vs h
    simp only [decodeLoop] at h
    cases hs : pySliceBytes data p (check_datacode (pyStrOf (dcOf i))) with
    | none => rw [hs] at h; cases h
    | some bytes =>
      rw [hs] at h
      dsimp only at h
      cases hd : ehcDecode (dcOf i) bytes with
      | none => rw [hd] at h; cases h
      | some v =>
        rw [hd] at h
        dsimp only at h
        cases hr : decodeLoop dcOf data (i + 1) (p + check_datacode (pyStrOf (dcOf i))) k with
        | none => rw [hr] at h; cases h
        | some vs' =>
          rw [hr] at h
          cases h
          simp [ih _ _ _ hr]

/-- The retry loop consults only the attempts with index below `r + k`. -/
theorem twiRetry_congr (att att' : Nat → Option (List Int)) :
    ∀ (k r : Nat), (∀ i, r ≤ i → i < r + k → att i = att' i) →
      twiRetry att r k = twiRetry att' r k := by
  intro k
  induction k with
  | zero => intro r _; rfl
  | succ k ih =>
    intro r h
    have h0 : att r = att' r := h r (le_refl r) (by omega)
    simp only [twiRetry, h0]
    cases att' r with
    | some f => rfl
    | none => exact ih (r + 1) (fun i h1 h2 => h i (by omega) (by omega))

/-- If every attempt in the window fails, the retry loop exhausts its budget
with an empty frame. -/
theorem twiRetry_allFail (att : Nat → Option (List Int)) :
    ∀ (k r : Nat), (∀ i, r ≤ i → i < r + k → att i = none) →
      twiRetry att r k = (r + k, []) := by
  intro k
  induction k with
  | zero => intro r _; rfl
  | succ k ih =>
    intro r h
    have h0 : att r = none := h r (le_refl r) (by omega)
    simp only [twiRetry, h0]
    have := ih (r + 1) (fun i h1 h2 => h i (by omega) (by omega))
    rw [this]
    congr 1
    omega

/-- If the first success is attempt `j` (within the budget), the retry loop
stops there with that block and `retry = j`. -/
theorem twiRetry_firstSuccess (att : Nat → Option (List Int)) (bl : List Int) :
    ∀ (k r j : Nat), r ≤ j → j < r + k →
      (∀ i, r ≤ i → i < j → att i = none) → att j = some bl →
      twiRetry att r k = (j, bl) := by
  intro k
  induction k with
  | zero => intro r j h1 h2; omega
  | succ k ih =>
    intro r j h1 h2 hfail hsucc
    by_cases hrj : r = j
    · subst hrj
      simp only [twiRetry, hsucc]
    · have h0 : att r = none := hfail r (le_refl r) (by omega)
      simp only [twiRetry, h0]
      exact ih (r + 1) j (by omega) (by omega) (fun i ha hb => hfail i (by omega) hb) hsucc

/-! ## Claim C2 -/

/-- C2: the claim states that after transport-specific stripping, generic
numeric validation is applied to every frame (radio frames with a
signal-quality marker included), so any remaining non-numeric token makes
decode return none.  The code does not do this: for an RSSI-suffixed radio
frame the Jee validator returns at line 543 before the parent's numeric
check, and with the no-encoding datacode `'0'` the non-numeric token `abc`
then reaches `float(val)` at line 233, which raises an uncaught
`ValueError` instead of returning none — the reader thread dies.
This theorem evaluates `_process_frame` with the Jee validator on the
failing input `OK 10 abc (-62)` under `pause = 'off'`, `datacode = '0'`:
the result is a raise, not none. -/
theorem C2_rssi_skips_validation_raises :
    (process_frame jee_validate_frame nodelistEmpty
        [(kPause, .str kOff), (kDatacode, .str kZero)] 0
        ['O', 'K', ' ', '1', '0', ' ', 'a', 'b', 'c', ' ', '(', '-', '6', '2', ')']
        100).2.1
      = .error () := by
  decide

/-! ## Claim C7 -/

/-- C7: the radio line `OK 10 23 45 (-62)\r\n` is read by the Jee reader with
its default settings (`datacode = 'h'`): the leading `OK` token and the
trailing `(-62)` marker are stripped, the two payload bytes decode under
`h` to 11543, and the decoded frame is
`[timestamp, node 10, 11543, rssi -62, ref 1]` — the signal quality −62
sits after the decoded values and before the reference number. -/
theorem C7_radio_end_to_end :
    jeeRead nodelistEmpty jeeBaseDefaults 0 [] []
        ['O', 'K', ' ', '1', '0', ' ', '2', '3', ' ', '4', '5', ' ', '(', '-', '6', '2', ')',
         '\r', '\n'] 100
      = ([], [], 1, .ok (some [100, 10, 11543, -62, 1]),
         [.newFrame 1 100
            ['O', 'K', ' ', '1', '0', ' ', '2', '3', ' ', '4', '5', ' ', '(', '-', '6', '2', ')'],
          .decoded 1 [100, 10, 11543, -62, 1]]) := by
  rfl

/-! ## Claim C9 -/

/-- C9: the claim states that none/empty is never put on the shared queue.
The I2C reader violates it: `read()` enqueues `self._process_frame(f, t)`
unconditionally (line 803), so when the decode pass discards the frame
(here `pause = 'in'`) the Python value `None` is put on the queue.  With
one successful block read the per-device pass produces exactly the queue
put `none`. -/
theorem C9_twi_enqueues_none :
    twiReadDevice nodelistEmpty twiSettingsPauseIn 0 (fun _ => some [1, 2]) ['5'] 100
      = .ok (0, [none], []) := by
  decide

/-! ## Claim C1 -/

/-- C1 counterexample: node `5` has the descriptor list `['b']` of total byte
width 1, and the payload `['3.5']` has length exactly 1, yet
`_decode_frame` rejects the frame (`int('3.5')` raises inside the decode
loop, caught at line 259) instead of decoding one value.  The token `3.5`
passes the generic `float()` validation, so this input reaches
`_decode_frame` through the normal pipeline. -/
theorem C1_counterexample :
    decode_frame nodelistB (some (.str kZero)) 1 [['5'], ['3', '.', '5']]
        = (.ok none, [.warnDecodeFail 1])
      ∧ (pyParseFloat ['3', '.', '5']).isSome = true
      ∧ [['3', '.', '5']].length = ([kb].map check_datacode).sum
      ∧ nodelistB ['5'] = some ⟨some [kb], none⟩ := by
  refine ⟨by decide, by decide, by decide, by decide⟩

/-- C1 (amended): for a node whose entry carries a per-value descriptor list
`dcs` of total byte width `W = sum of the symbol widths`, `_decode_frame`
(a) rejects the frame with a length warning whenever the payload length
differs from `W`, and (b) when the payload length equals `W` **and the
value-decoding loop succeeds** (every byte token converts with `int()` and
decodes under its symbol) and the node id is integral, it decodes to
exactly `len(dcs)` values (prefixed by the node id). -/
theorem C1_decode_frame_datacodes (nodelist : Nodelist) (dcSetting : Option PyVal)
    (ref : Nat) (node : PyStr) (data : List PyStr) (e : NodeEntry) (dcs : List PyStr)
    (hnode : nodelist node = some e) (hdcs : e.datacodes = some dcs) :
    (data.length ≠ (dcs.map check_datacode).sum →
      decode_frame nodelist dcSetting ref (node :: data)
        = (.ok none, [.warnLenCodes ref data.length])) ∧
    (data.length = (dcs.map check_datacode).sum →
      ∀ (vs : List ℚ) (n : Int),
        decodeLoop (fun i => .str (dcs.getD i [])) data 0 0 dcs.length = some vs →
        pyParseInt node = some n →
        decode_frame nodelist dcSetting ref (node :: data)
          = (.ok (some ((n : ℚ) :: vs)), []) ∧ vs.length = dcs.length) := by
  constructor
  · intro hlen
    unfold decode_frame
    dsimp only
    rw [hnode]
    dsimp only [Option.bind]
    rw [hdcs]
    dsimp only
    rw [if_pos hlen]
  · intro hlen vs n hloop hn
    constructor
    · unfold decode_frame
      dsimp only
      rw [hnode]
      dsimp only [Option.bind]
      rw [hdcs]
      dsimp only
      rw [if_neg (fun h => h hlen), hloop]
      dsimp only
      rw [hn]
    · exact decodeLoop_length _ _ _ _ _ _ hloop

/-- C1 witness: node `5` with descriptor list `['b']`, payload `['7']` of
length 1 = W; the loop decodes the single value 7 and the frame becomes
`[5, 7]` — one value for the one descriptor entry.  A payload of length 2
is rejected with the length warning. -/
theorem C1_witness :
    decode_frame nodelistB (some (.str kZero)) 1 [['5'], ['7']]
        = (.ok (some [5, 7]), [])
      ∧ decode_frame nodelistB (some (.str kZero)) 1 [['5'], ['7'], ['8']]
        = (.ok none, [.warnLenCodes 1 2]) := by
  have h := C1_decode_frame_datacodes nodelistB (some (.str kZero)) 1 ['5']
    [['7']] ⟨some [kb], none⟩ [kb] (by decide) rfl
  have h2 := C1_decode_frame_datacodes nodelistB (some (.str kZero)) 1 ['5']
    [['7'], ['8']] ⟨some [kb], none⟩ [kb] (by decide) rfl
  refine ⟨?_, ?_⟩
  · have := (h.2 (by decide) [7] 5 (by decide) (by decide)).1
    simpa using this
  · exact h2.1 (by decide)

/-! ## Claim C3 -/

/-- C3 counterexample: with buffer content `A\r\nB\r\n` the serial reader
yields the frame `A\r\nB` (the buffer minus its last two characters) and
clears the buffer, not the claimed first-delimiter frame `A` with remainder
`B\r\n`; the socket reader does yield `(A, B\r\n)`. -/
theorem C3_counterexample :
    serialReadStep [] ['A', '\r', '\n', 'B', '\r', '\n']
        = (some ['A', '\r', '\n', 'B'], [])
      ∧ (['A', '\r', '\n', 'B'] : List Char) ≠ ['A']
      ∧ socketReadStep [] ['A', '\r', '\n', 'B', '\r', '\n']
        = (some ['A'], ['B', '\r', '\n']) := by
  refine ⟨by decide, by decide, by decide⟩

/-- C3 (amended): when the combined buffer contains no CR-LF, both line-framed
readers yield no frame and retain the data.  When it decomposes as
`a ++ CRLF ++ b` with no CR-LF inside `a` (so this is the first delimiter):
the socket reader yields frame `a` and resets its buffer to the remainder
`b`, exactly as claimed; the serial reader instead yields the whole buffer
minus its final two characters and clears the buffer — which coincides with
the claimed behavior exactly when the delimiter is terminal (`b = []`, the
case guaranteed by the serial `readline` chunk discipline). -/
theorem C3_line_framing (buf incoming a b : List Char)
    (hsplit : buf ++ incoming = a ++ '\r' :: '\n' :: b) (ha : splitCRLF a = none) :
    socketReadStep buf incoming = (some a, b) ∧
    serialReadStep buf incoming
      = (some ((a ++ '\r' :: '\n' :: b).dropLast.dropLast), []) ∧
    (b = [] → serialReadStep buf incoming = (some a, [])) ∧
    (∀ buf2 inc2 : List Char, splitCRLF (buf2 ++ inc2) = none →
      socketReadStep buf2 inc2 = (none, buf2 ++ inc2) ∧
      serialReadStep buf2 inc2 = (none, buf2 ++ inc2)) := by
  have hfirst := splitCRLF_append b a ha
  refine ⟨?_, ?_, ?_, ?_⟩
  · unfold socketReadStep
    dsimp only
    rw [hsplit, hfirst]
  · unfold serialReadStep
    dsimp only
    rw [hsplit, hfirst]
    rfl
  · intro hb
    subst hb
    unfold serialReadStep
    dsimp only
    rw [hsplit, hfirst]
    have hdrop : (a ++ '\r' :: '\n' :: ([] : List Char)).dropLast.dropLast = a := by
      have h1 : a ++ '\r' :: '\n' :: ([] : List Char) = (a ++ ['\r']) ++ ['\n'] := by simp
      rw [h1, List.dropLast_concat, List.dropLast_concat]
    simp only [Option.isSome_some, if_pos]
    rw [hdrop]
  · intro buf2 inc2 h2
    constructor
    · unfold socketReadStep
      dsimp only
      rw [h2]
    · unfold serialReadStep
      dsimp only
      rw [h2]
      rfl

/-- C3 witness: a buffer `A\r` completed by the chunk `\n` yields the frame
`A` with an empty remainder on both readers, and a buffer with no delimiter
retains its data. -/
theorem C3_witness :
    socketReadStep ['A', '\r'] ['\n'] = (some ['A'], [])
      ∧ serialReadStep ['A', '\r'] ['\n'] = (some ['A'], [])
      ∧ serialReadStep ['A'] ['B'] = (none, ['A', 'B']) := by
  have h := C3_line_framing ['A', '\r'] ['\n'] ['A'] [] (by decide) (by decide)
  exact ⟨h.1, h.2.2.1 rfl, (h.2.2.2 ['A'] ['B'] (by decide)).2⟩

/-! ## Claim C4 -/

/-- C4: for every `set` call and every recognized key (a key of the defaults
table) with effective candidate `kwargs[key]` (or the default when absent):
an invalid candidate (that does not equal the stored value, in which case
the claim's skip clause applies instead) leaves the stored value unchanged
and contributes exactly one warning naming the key and the rejected value;
a valid candidate that differs from the stored value is stored, with
exactly one log entry for the key (so exactly one write); a candidate equal
to the stored value leaves it unchanged and contributes no log entry naming
the key.  `set` is a total function: no exception is raised. -/
theorem C4_apply_settings (settings kwargs : Dict) (key : PyStr) (d : PyVal)
    (hmem : (key, d) ∈ baseDefaults) :
    (storedEqB settings key ((dictGet kwargs key).getD d) = false →
      checkSetting key ((dictGet kwargs key).getD d) = false →
      dictGet (interfacerSet baseDefaults settings kwargs).1 key = dictGet settings key ∧
      logsFor key (interfacerSet baseDefaults settings kwargs).2
        = [.warnSetting ((dictGet kwargs key).getD d) key]) ∧
    (storedEqB settings key ((dictGet kwargs key).getD d) = false →
      checkSetting key ((dictGet kwargs key).getD d) = true →
      dictGet (interfacerSet baseDefaults settings kwargs).1 key
        = some ((dictGet kwargs key).getD d) ∧
      logsFor key (interfacerSet baseDefaults settings kwargs).2
        = [.debugSetting key ((dictGet kwargs key).getD d)]) ∧
    (storedEqB settings key ((dictGet kwargs key).getD d) = true →
      dictGet (interfacerSet baseDefaults settings kwargs).1 key = dictGet settings key ∧
      logsFor key (interfacerSet baseDefaults settings kwargs).2 = []) := by
  have hnd : (baseDefaults.map Prod.fst).Nodup := by decide
  have hown := setFold_spec_own baseDefaults settings kwargs [] key d hmem hnd
  refine ⟨?_, ?_, ?_⟩
  · intro hEq hchk
    have hstep : setStep settings key ((dictGet kwargs key).getD d)
        = (none, [Log.warnSetting ((dictGet kwargs key).getD d) key]) := by
      simp [setStep, hEq, setApply, hchk]
    constructor
    · have h1 := hown.1
      rw [hstep] at h1
      exact h1
    · have h2 := hown.2
      rw [hstep] at h2
      simpa [logsFor, logKey] using h2
  · intro hEq hchk
    have hstep : setStep settings key ((dictGet kwargs key).getD d)
        = (some ((dictGet kwargs key).getD d),
           [Log.debugSetting key ((dictGet kwargs key).getD d)]) := by
      simp [setStep, hEq, setApply, hchk]
    constructor
    · have h1 := hown.1
      rw [hstep] at h1
      exact h1.trans (dictGet_dictSet_self settings key _)
    · have h2 := hown.2
      rw [hstep] at h2
      simpa [logsFor, logKey] using h2
  · intro hEq
    have hstep : setStep settings key ((dictGet kwargs key).getD d) = (none, []) := by
      simp [setStep, hEq]
    constructor
    · have h1 := hown.1
      rw [hstep] at h1
      exact h1
    · have h2 := hown.2
      rw [hstep] at h2
      simpa [logsFor] using h2

/-- C4 witness: on the default snapshot, a bogus `pause` candidate is rejected
with a warning and the stored `off` retained; the valid new value `all` is
stored; the candidate `off` (equal to the stored value) produces no
`pause` log entry. -/
theorem C4_witness :
    dictGet (interfacerSet baseDefaults baseDefaults
        [(kPause, PyVal.str ['b', 'o', 'g', 'u', 's'])]).1 kPause
      = some (.str kOff)
    ∧ logsFor kPause (interfacerSet baseDefaults baseDefaults
        [(kPause, PyVal.str ['b', 'o', 'g', 'u', 's'])]).2
      = [.warnSetting (.str ['b', 'o', 'g', 'u', 's']) kPause]
    ∧ dictGet (interfacerSet baseDefaults baseDefaults
        [(kPause, PyVal.str kAll)]).1 kPause = some (.str kAll)
    ∧ logsFor kPause (interfacerSet baseDefaults baseDefaults
        [(kPause, PyVal.str kOff)]).2 = [] := by
  have h1 := C4_apply_settings baseDefaults
    [(kPause, PyVal.str ['b', 'o', 'g', 'u', 's'])] kPause (.str kOff) (by decide)
  have h2 := C4_apply_settings baseDefaults
    [(kPause, PyVal.str kAll)] kPause (.str kOff) (by decide)
  have h3 := C4_apply_settings baseDefaults
    [(kPause, PyVal.str kOff)] kPause (.str kOff) (by decide)
  refine ⟨?_, ?_, ?_, ?_⟩
  · exact ((h1.1 (by decide) (by decide)).1).trans (by decide)
  · exact (h1.1 (by decide) (by decide)).2
  · exact (h2.2.1 (by decide) (by decide)).1
  · exact (h3.2.2 (by decide)).2

/-! ## Claim C5 -/

/-- C5: when the stored pause value lowers to `all` or `in`, `_process_frame`
returns none immediately: the counter is untouched (no reference number is
assigned) and no log entry is written — no validation or decoding happens.
When the pause value is `out`, the run is identical to a `pause = off` run
(same new counter value, same logs, i.e. the full pipeline with its side
effects) except that a successfully decoded frame is replaced by none. -/
theorem C5_pause_semantics (validate : Validator) (nodelist : Nodelist)
    (settings : Dict) (counter : Nat) (frame : PyStr) (t : ℚ) (p : PyStr)
    (hp : dictGet settings kPause = some (.str p))
    (hlow : pyLower p = kAll ∨ pyLower p = kIn) :
    process_frame validate nodelist settings counter frame t
      = (counter, .ok none, []) ∧
    process_frame validate nodelist (dictSet settings kPause (.str kOut)) counter frame t
      = ((process_frame validate nodelist (dictSet settings kPause (.str kOff))
            counter frame t).1,
         (match (process_frame validate nodelist (dictSet settings kPause (.str kOff))
              counter frame t).2.1 with
          | .ok (some _) => .ok none
          | r => r),
         (process_frame validate nodelist (dictSet settings kPause (.str kOff))
            counter frame t).2.2) := by
  constructor
  · have hin : pauseInE settings = .ok true := by
      unfold pauseInE
      rw [hp]
      rcases hlow with h | h <;> simp [h]
    unfold process_frame
    rw [hin]
  · have hgo := dictGet_dictSet_self settings kPause (PyVal.str kOut)
    have hgf := dictGet_dictSet_self settings kPause (PyVal.str kOff)
    have hin_o : pauseInE (dictSet settings kPause (.str kOut)) = .ok false := by
      unfold pauseInE
      rw [hgo]
      decide
    have hin_f : pauseInE (dictSet settings kPause (.str kOff)) = .ok false := by
      unfold pauseInE
      rw [hgf]
      decide
    have hout_o : pauseOutB (dictSet settings kPause (.str kOut)) = true := by
      unfold pauseOutB
      rw [hgo]
      decide
    have hout_f : pauseOutB (dictSet settings kPause (.str kOff)) = false := by
      unfold pauseOutB
      rw [hgf]
      decide
    have hdc : dictGet (dictSet settings kPause (.str kOut)) kDatacode
        = dictGet (dictSet settings kPause (.str kOff)) kDatacode := by
      rw [dictGet_dictSet_ne _ _ _ _ (by decide), dictGet_dictSet_ne _ _ _ _ (by decide)]
    unfold process_frame
    rw [hin_o, hin_f]
    dsimp only
    rw [hdc, hout_o, hout_f]
    cases hcore : processCore validate nodelist
        (dictGet (dictSet settings kPause (.str kOff)) kDatacode) counter frame t with
    | mk c' rest =>
      obtain ⟨r, lg⟩ := rest
      cases r with
      | error e => rfl
      | ok o =>
        cases o with
        | none => rfl
        | some fr => rfl

/-- C5 witness: with `pause = 'all'` stored, a frame is discarded with no
counter increment and no logs; and at the same concrete input the
`pause = 'out'` run equals the `pause = 'off'` run with its decoded frame
masked to none. -/
theorem C5_witness :
    process_frame validate_frame nodelistEmpty
        (dictSet baseDefaults kPause (.str kAll)) 0 ['1', '0', ' ', '2'] 5
      = (0, .ok none, [])
    ∧ process_frame validate_frame nodelistEmpty
        (dictSet (dictSet baseDefaults kPause (.str kAll)) kPause (.str kOut))
        0 ['1', '0', ' ', '2'] 5
      = ((process_frame validate_frame nodelistEmpty
            (dictSet (dictSet baseDefaults kPause (.str kAll)) kPause (.str kOff))
            0 ['1', '0', ' ', '2'] 5).1,
         (match (process_frame validate_frame nodelistEmpty
              (dictSet (dictSet baseDefaults kPause (.str kAll)) kPause (.str kOff))
              0 ['1', '0', ' ', '2'] 5).2.1 with
          | .ok (some _) => .ok none
          | r => r),
         (process_frame validate_frame nodelistEmpty
            (dictSet (dictSet baseDefaults kPause (.str kAll)) kPause (.str kOff))
            0 ['1', '0', ' ', '2'] 5).2.2) := by
  exact C5_pause_semantics validate_frame nodelistEmpty
    (dictSet baseDefaults kPause (.str kAll)) 0 ['1', '0', ' ', '2'] 5 kAll
    (by decide) (Or.inl (by decide))

/-! ## Claim C6 -/

/-- C6 counterexample: an immediate success (`k = 0` failed retries, which the
claim covers via `k < 5`) with a non-empty block produces one frame but no
debug log at all — `if retry:` is false — whereas the claim asserts a debug
log recording the `k` retries. -/
theorem C6_counterexample :
    twiReadDevice nodelistEmpty twiSettingsLen2 0 (fun _ => some [1, 2]) ['5'] 100
      = .ok (1, [some [100, 5, 513, 1]],
          [.newFrame 1 100 ['5', ' ', '1', ' ', '2'], .decoded 1 [100, 5, 513, 1]])
    ∧ ([Log.newFrame 1 100 ['5', ' ', '1', ' ', '2'],
        Log.decoded 1 [100, 5, 513, 1]].all
          (fun l => match l with
            | Log.twiDebugRetried _ _ => false
            | _ => true)) = true := by
  exact ⟨rfl, rfl⟩

/-- C6 (amended): per device and poll cycle, (i) the block read consults at
most the first 5 attempt outcomes; (ii) if all 5 attempts fail, no
exception propagates, a warning is logged and no queue put is made for the
device; (iii) if the first success is attempt `k` (`k < 5` failures before
it), the successful non-empty block is decoded and enqueued as exactly one
queue item, and a debug log records `k` when `k ≥ 1` (an immediate success
logs nothing); an empty successful block (block length 0) produces no
queue item. -/
theorem C6_twi_retry (nodelist : Nodelist) (settings : Dict) (counter : Nat)
    (att : Nat → Option (List Int)) (b : PyStr) (t : ℚ)
    (nAdd nLen : Int) (lv : PyVal)
    (hb : pyIntOfE (.str b) = .ok nAdd)
    (hL : dictGet settings kLength = some lv)
    (hLn : pyIntOfE lv = .ok nLen) :
    (∀ att' : Nat → Option (List Int), (∀ i, i < 5 → att i = att' i) →
      twiReadDevice nodelist settings counter att b t
        = twiReadDevice nodelist settings counter att' b t) ∧
    ((∀ i, i < 5 → att i = none) →
      twiReadDevice nodelist settings counter att b t
        = .ok (counter, [], [.twiWarnFailed b])) ∧
    (∀ (k : Nat) (bl : List Int), k < 5 →
      (∀ i, i < k → att i = none) → att k = some bl →
      (bl = [] →
        twiReadDevice nodelist settings counter att b t
          = .ok (counter, [], if k = 0 then [] else [.twiDebugRetried b k])) ∧
      (∀ (c' : Nat) (r : Option (List ℚ)) (lg : List Log), bl ≠ [] →
        process_frame validate_frame nodelist settings counter
            (b ++ [' '] ++ joinSpace (bl.map intRepr)) t = (c', .ok r, lg) →
        twiReadDevice nodelist settings counter att b t
          = .ok (c', [r], lg ++ (if k = 0 then [] else [.twiDebugRetried b k])))) := by
  refine ⟨?_, ?_, ?_⟩
  · intro att' hagree
    unfold twiReadDevice
    rw [twiRetry_congr att att' 5 0 (fun i h1 h2 => hagree i (by omega))]
  · intro hfail
    have hret : twiRetry att 0 5 = (5, []) := by
      have h := twiRetry_allFail att 5 0 (fun i h1 h2 => hfail i (by omega))
      simpa using h
    unfold twiReadDevice
    rw [hb]
    dsimp only
    rw [hL]
    dsimp only
    rw [hLn]
    dsimp only
    rw [hret]
    simp
  · intro k bl hk hfail hsucc
    have hret : twiRetry att 0 5 = (k, bl) :=
      twiRetry_firstSuccess att bl 5 0 k (by omega) (by omega)
        (fun i h1 h2 => hfail i h2) hsucc
    constructor
    · intro hbl
      subst hbl
      unfold twiReadDevice
      rw [hb]
      dsimp only
      rw [hL]
      dsimp only
      rw [hLn]
      dsimp only
      rw [hret]
      by_cases hk0 : k = 0
      · subst hk0
        rfl
      · have hk5 : k ≠ 5 := by omega
        simp [hk0, hk5]
    · intro c' r lg hbl hproc
      unfold twiReadDevice
      rw [hb]
      dsimp only
      rw [hL]
      dsimp only
      rw [hLn]
      dsimp only
      rw [hret]
      have hne : bl.isEmpty = false := by
        cases bl with
        | nil => exact absurd rfl hbl
        | cons x xs => rfl
      rw [hne]
      dsimp only
      rw [hproc]
      by_cases hk0 : k = 0
      · subst hk0
        simp
      · have hk5 : k ≠ 5 := by omega
        simp [hk0, hk5]

/-- C6 witness: with two failed attempts then a successful 2-byte block, the
device pass enqueues exactly one frame and logs `retried: 2 times`; with
every attempt failing it enqueues nothing and logs the 5-attempt warning,
raising nothing. -/
theorem C6_witness :
    twiReadDevice nodelistEmpty twiSettingsLen2 0
        (fun i => if i < 2 then none else some [1, 2]) ['5'] 100
      = .ok (1, [some [100, 5, 513, 1]],
          [.newFrame 1 100 ['5', ' ', '1', ' ', '2'], .decoded 1 [100, 5, 513, 1],
           .twiDebugRetried ['5'] 2])
    ∧ twiReadDevice nodelistEmpty twiSettingsLen2 0 (fun _ => none) ['5'] 100
      = .ok (0, [], [.twiWarnFailed ['5']]) := by
  have h := C6_twi_retry nodelistEmpty twiSettingsLen2 0
    (fun i => if i < 2 then none else some [1, 2]) ['5'] 100 5 2 (.str ['2'])
    (by decide) (by decide) (by decide)
  have h2 := C6_twi_retry nodelistEmpty twiSettingsLen2 0
    (fun _ => none) ['5'] 100 5 2 (.str ['2']) (by decide) (by decide) (by decide)
  constructor
  · have h3 := (h.2.2 2 [1, 2] (by omega) (fun i hi => by simp [hi]) rfl).2 1
      (some [100, 5, 513, 1])
      [.newFrame 1 100 ['5', ' ', '1', ' ', '2'], .decoded 1 [100, 5, 513, 1]]
      (by decide) (by rfl)
    exact h3.trans (by rfl)
  · exact h2.2.1 (fun i _ => rfl)

/-! ## Claim C8 -/

/-- C8 counterexample: the line `x MHz` contains only the `' MHz'` marker —
`' i'` is absent — yet `read()` consumes it as a device-settings update
(returns none and stores it as `info[1]`), because
`" i" and " g" and " @ " and " MHz" in f` evaluates to `" MHz" in f`. -/
theorem C8_counterexample :
    jeeRead nodelistEmpty jeeBaseDefaults 0 [] []
        ['x', ' ', 'M', 'H', 'z', '\r', '\n'] 100
      = ([], ['x', ' ', 'M', 'H', 'z'], 0, .ok none,
         [.deviceSettingsUpdated ['x', ' ', 'M', 'H', 'z']])
    ∧ pyInStr kMi ['x', ' ', 'M', 'H', 'z'] = false := by
  exact ⟨rfl, rfl⟩

theorem splitCRLF_append_not_none (y : List Char) :
    ∀ x : List Char, (splitCRLF (x ++ '\r' :: '\n' :: y)).isNone = false := by
  intro x
  induction x with
  | nil => rfl
  | cons c xrest ih =>
    cases xrest with
    | nil =>
      show (splitCRLF (c :: '\r' :: '\n' :: y)).isNone = false
      have hsp : splitCRLF (c :: '\r' :: '\n' :: y)
          = if c = '\r' && ('\r' : Char) = '\n' then some ([], '\n' :: y)
            else (splitCRLF ('\r' :: '\n' :: y)).map (fun p => (c :: p.1, p.2)) := rfl
      rw [hsp]
      have hfalse : (c = '\r' && ('\r' : Char) = '\n') = false := by simp
      rw [hfalse]
      rfl
    | cons c2 x2 =>
      have hsp : splitCRLF (c :: c2 :: (x2 ++ '\r' :: '\n' :: y))
          = if c = '\r' && c2 = '\n' then some ([], x2 ++ '\r' :: '\n' :: y)
            else (splitCRLF (c2 :: (x2 ++ '\r' :: '\n' :: y))).map
              (fun p => (c :: p.1, p.2)) := rfl
      show (splitCRLF (c :: c2 :: (x2 ++ '\r' :: '\n' :: y))).isNone = false
      rw [hsp]
      by_cases hc : (c = '\r' && c2 = '\n') = true
      · rw [if_pos hc]
        rfl
      · rw [if_neg (by simpa using hc)]
        cases hcv : splitCRLF (c2 :: (x2 ++ '\r' :: '\n' :: y)) with
        | none =>
          have h2 := ih
          simp only [List.cons_append] at h2
          rw [hcv] at h2
          exact absurd h2 (by simp)
        | some p => rfl

theorem dropLast2_crlf (x : List Char) :
    (x ++ '\r' :: '\n' :: []).dropLast.dropLast = x := by
  have h1 : x ++ '\r' :: '\n' :: ([] : List Char) = (x ++ ['\r']) ++ ['\n'] := by simp
  rw [h1, List.dropLast_concat, List.dropLast_concat]

/-- C8 (amended): the bring-up pre-seed (line 474) genuinely requires all four
markers: with any marker absent the settings snapshot is unchanged, and
with all four present the radio defaults are pre-loaded.  The `read()`
consumption site (line 510), however, requires only the `' MHz'` marker: a
completed line (not an information message) is consumed as a
device-settings update — returning none and replacing `info[1]` — exactly
when it contains `' MHz'`, and otherwise leaves `info[1]` untouched. -/
theorem C8_markers (nodelist : Nodelist) (settings : Dict) (info1 : PyStr)
    (counter : Nat) (t : ℚ) (c : Char) (rest : PyStr)
    (h1 : c ≠ '>') (h2 : (c :: rest).take 3 ≠ [' ', '-', '>']) (h3 : c ≠ '\x01') :
    (allJeeMarkers info1 = false → jeePreload info1 settings = settings) ∧
    (allJeeMarkers info1 = true →
      dictGet (jeePreload info1 settings) kBaseid = some (.str k15) ∧
      dictGet (jeePreload info1 settings) kFrequency = some (.str k433) ∧
      dictGet (jeePreload info1 settings) kGroup = some (.str k210) ∧
      dictGet (jeePreload info1 settings) kQuiet = some (.str kTrueCap)) ∧
    (pyInStr kMHz (c :: rest) = true →
      jeeRead nodelist settings counter info1 [] ((c :: rest) ++ ['\r', '\n']) t
        = ([], c :: rest, counter, .ok none, [.deviceSettingsUpdated (c :: rest)])) ∧
    (pyInStr kMHz (c :: rest) = false →
      (jeeRead nodelist settings counter info1 [] ((c :: rest) ++ ['\r', '\n']) t).2.1
        = info1) := by
  refine ⟨?_, ?_, ?_, ?_⟩
  · intro h
    unfold jeePreload
    rw [h]
    rfl
  · intro h
    unfold jeePreload
    rw [h]
    simp only [if_true, jeeSettingsDefaults, List.foldl]
    refine ⟨?_, ?_, ?_, ?_⟩
    · rw [dictGet_dictSet_ne _ _ _ _ (by decide), dictGet_dictSet_ne _ _ _ _ (by decide),
        dictGet_dictSet_ne _ _ _ _ (by decide), dictGet_dictSet_self]
    · rw [dictGet_dictSet_ne _ _ _ _ (by decide), dictGet_dictSet_ne _ _ _ _ (by decide),
        dictGet_dictSet_self]
    · rw [dictGet_dictSet_ne _ _ _ _ (by decide), dictGet_dictSet_self]
    · rw [dictGet_dictSet_self]
  · intro hm
    unfold jeeRead
    dsimp only
    rw [List.nil_append, splitCRLF_append_not_none, dropLast2_crlf]
    simp [h1, h2, h3, hm]
    intro hc hr
    exact h2 (by simp [hc, hr])
  · intro hm
    unfold jeeRead
    dsimp only
    rw [List.nil_append, splitCRLF_append_not_none, dropLast2_crlf]
    have hcond : ¬(c = ' ' ∧ rest.take 2 = ['-', '>']) := by
      intro hcon
      exact h2 (by simp [hcon.1, hcon.2])
    simp [h1, h2, h3, hm, hcond]

/-- C8 witness: an info string missing `' i'` does not pre-seed; a full info
string pre-seeds all four radio defaults; a completed `x MHz` line is
consumed as a settings update; the numeric line `7 8` (no `' MHz'`) leaves
`info[1]` untouched. -/
theorem C8_witness :
    jeePreload ['x', ' ', 'M', 'H', 'z'] jeeBaseDefaults = jeeBaseDefaults
    ∧ dictGet (jeePreload
        [' ', 'i', '1', '5', ' ', 'g', '2', '1', '0', ' ', '@', ' ', '4', '3', '3', ' ',
         'M', 'H', 'z'] jeeBaseDefaults) kBaseid = some (.str k15)
    ∧ jeeRead nodelistEmpty jeeBaseDefaults 3 ['o', 'l', 'd'] []
        ['x', ' ', 'M', 'H', 'z', '\r', '\n'] 100
      = ([], ['x', ' ', 'M', 'H', 'z'], 3, .ok none,
         [.deviceSettingsUpdated ['x', ' ', 'M', 'H', 'z']])
    ∧ (jeeRead nodelistEmpty jeeBaseDefaults 3 ['o', 'l', 'd'] []
        ['7', ' ', '8', '\r', '\n'] 100).2.1 = ['o', 'l', 'd'] := by
  have hx := C8_markers nodelistEmpty jeeBaseDefaults ['x', ' ', 'M', 'H', 'z'] 3 100
    'x' [' ', 'M', 'H', 'z'] (by decide) (by decide) (by decide)
  have hfull := C8_markers nodelistEmpty jeeBaseDefaults
    [' ', 'i', '1', '5', ' ', 'g', '2', '1', '0', ' ', '@', ' ', '4', '3', '3', ' ',
     'M', 'H', 'z'] 3 100 'x' [] (by decide) (by decide) (by decide)
  have hnum := C8_markers nodelistEmpty jeeBaseDefaults ['o', 'l', 'd'] 3 100
    '7' [' ', '8'] (by decide) (by decide) (by decide)
  refine ⟨?_, ?_, ?_, ?_⟩
  · exact hx.1 (by decide)
  · exact (hfull.2.1 (by decide)).1
  · have := hx.2.2.1 (by decide)
    exact this
  · exact hnum.2.2.2 (by decide)

/-! ## Claim C10 -/

/-- C10 counterexample: a `set` call on the bus (Twi) reader whose candidate
map does not mention `length` raises (`int('')` on the built-in default
fails) instead of reverting the key — even with valid values stored. -/
theorem C10_counterexample :
    twiSet [(kDeviceids, .str ['5']), (kLength, .str ['8'])] [] = .error () := by
  rfl

theorem jeeStep_default_baseid (info1 : PyStr) (s : Dict)
    (hEq : storedEqB s kBaseid (.str k15) = false) :
    jeeStep info1 s kBaseid (.str k15)
      = .ok (some (.str k15), some ['1', '5', 'i'],
             [.infoSetting kBaseid (.str k15)]) := by
  unfold jeeStep
  rw [hEq]
  rfl

theorem jeeStep_default_frequency (info1 : PyStr) (s : Dict)
    (hEq : storedEqB s kFrequency (.str k433) = false) :
    jeeStep info1 s kFrequency (.str k433)
      = .ok (some (.str k433), some ['4', 'b'],
             [.infoSetting kFrequency (.str k433)]) := by
  unfold jeeStep
  rw [hEq]
  rfl

theorem jeeStep_default_group (info1 : PyStr) (s : Dict)
    (hEq : storedEqB s kGroup (.str k210) = false) :
    jeeStep info1 s kGroup (.str k210)
      = .ok (some (.str k210), some ['2', '1', '0', 'g'],
             [.infoSetting kGroup (.str k210)]) := by
  unfold jeeStep
  rw [hEq]
  rfl

theorem jeeStep_default_quiet (info1 : PyStr) (s : Dict)
    (hEq : storedEqB s kQuiet (.str kTrueCap) = false) :
    jeeStep info1 s kQuiet (.str kTrueCap)
      = .ok (some (.str kTrueCap), some ['1', 'q'],
             [.infoSetting kQuiet (.str kTrueCap)]) := by
  unfold jeeStep
  rw [hEq]
  rfl

/-- C10 (amended): a recognized key absent from the candidate map is indeed
re-assigned the built-in default (when it differs from the stored value and
passes validation) by the base `set` loop — for any defaults table with
distinct keys, so in particular for all three variants' parent call — and
by the radio variant's own keys; but the bus variant does not revert: any
`set` call whose candidate map lacks `length` raises (`int('')` fails on
the built-in default) instead. -/
theorem C10_revert_defaults :
    (∀ (defaults settings kwargs : Dict) (key : PyStr) (d : PyVal),
      (key, d) ∈ defaults → (defaults.map Prod.fst).Nodup →
      dictGet kwargs key = none →
      storedEqB settings key d = false → checkSetting key d = true →
      dictGet (interfacerSet defaults settings kwargs).1 key = some d) ∧
    (∀ (info1 : PyStr) (settings kwargs : Dict) (key : PyStr)
       (r : Dict × List PyStr × List Log),
      key ∈ [kBaseid, kFrequency, kGroup, kQuiet] →
      dictGet kwargs key = none →
      storedEqB settings key (jeeDefaultOf key) = false →
      jeeSet info1 settings kwargs = .ok r →
      dictGet r.1 key = some (jeeDefaultOf key)) ∧
    (∀ (settings kwargs : Dict),
      dictGet kwargs kLength = none →
      twiSet settings kwargs = .error ()) := by
  refine ⟨?_, ?_, ?_⟩
  · intro defaults settings kwargs key d hmem hnd hkw hEq hchk
    have hown := setFold_spec_own defaults settings kwargs [] key d hmem hnd
    have hcand : (dictGet kwargs key).getD d = d := by
      rw [hkw]
      rfl
    rw [hcand] at hown
    have hstep : setStep settings key d = (some d, [Log.debugSetting key d]) := by
      simp [setStep, hEq, setApply, hchk]
    have h1 := hown.1
    rw [hstep] at h1
    exact h1.trans (dictGet_dictSet_self settings key d)
  · intro info1 settings kwargs key r hkey hkw hEq hok
    simp only [List.mem_cons, List.mem_singleton, List.not_mem_nil, or_false] at hkey
    unfold jeeSet at hok
    rcases hkey with rfl | rfl | rfl | rfl
    · -- baseid: its own step runs first
      have hc1 : (dictGet kwargs kBaseid).getD (jeeDefaultOf kBaseid) = .str k15 := by
        rw [hkw]
        rfl
      have hs1 := jeeStep_default_baseid info1 settings hEq
      rw [hc1, hs1] at hok
      dsimp only at hok
      cases h2 : jeeStep info1 (applyAsg settings kBaseid (some (.str k15))) kFrequency
          ((dictGet kwargs kFrequency).getD (jeeDefaultOf kFrequency)) with
      | error e => cases e; rw [h2] at hok; cases hok
      | ok tr2 =>
        obtain ⟨a2, c2, l2⟩ := tr2
        rw [h2] at hok
        dsimp only at hok
        cases h3 : jeeStep info1
            (applyAsg (applyAsg settings kBaseid (some (.str k15))) kFrequency a2) kGroup
            ((dictGet kwargs kGroup).getD (jeeDefaultOf kGroup)) with
        | error e => cases e; rw [h3] at hok; cases hok
        | ok tr3 =>
          obtain ⟨a3, c3, l3⟩ := tr3
          rw [h3] at hok
          dsimp only at hok
          cases h4 : jeeStep info1
              (applyAsg (applyAsg (applyAsg settings kBaseid (some (.str k15)))
                kFrequency a2) kGroup a3) kQuiet
              ((dictGet kwargs kQuiet).getD (jeeDefaultOf kQuiet)) with
          | error e => cases e; rw [h4] at hok; cases hok
          | ok tr4 =>
            obtain ⟨a4, c4, l4⟩ := tr4
            rw [h4] at hok
            dsimp only at hok
            injection hok with hok2
            subst hok2
            show dictGet (setFold jeeBaseDefaults _ kwargs []).1 kBaseid = _
            rw [setFold_get_notmem _ _ _ _ _ (by decide),
              dictGet_applyAsg_ne _ _ _ _ (by decide),
              dictGet_applyAsg_ne _ _ _ _ (by decide),
              dictGet_applyAsg_ne _ _ _ _ (by decide)]
            exact dictGet_dictSet_self settings kBaseid (.str k15)
    · -- frequency: second step
      cases h1 : jeeStep info1 settings kBaseid
          ((dictGet kwargs kBaseid).getD (jeeDefaultOf kBaseid)) with
      | error e => cases e; rw [h1] at hok; cases hok
      | ok tr1 =>
        obtain ⟨a1, c1, l1⟩ := tr1
        rw [h1] at hok
        dsimp only at hok
        have hc2 : (dictGet kwargs kFrequency).getD (jeeDefaultOf kFrequency)
            = .str k433 := by
          rw [hkw]
          rfl
        have hgp : dictGet (applyAsg settings kBaseid a1) kFrequency
            = dictGet settings kFrequency := dictGet_applyAsg_ne _ _ _ _ (by decide)
        have hEq1 : storedEqB (applyAsg settings kBaseid a1) kFrequency (.str k433)
            = false := by
          rw [storedEqB_congr _ _ _ _ hgp]
          exact hEq
        have hs2 := jeeStep_default_frequency info1 (applyAsg settings kBaseid a1) hEq1
        rw [hc2, hs2] at hok
        dsimp only at hok
        cases h3 : jeeStep info1
            (applyAsg (applyAsg settings kBaseid a1) kFrequency (some (.str k433))) kGroup
            ((dictGet kwargs kGroup).getD (jeeDefaultOf kGroup)) with
        | error e => cases e; rw [h3] at hok; cases hok
        | ok tr3 =>
          obtain ⟨a3, c3, l3⟩ := tr3
          rw [h3] at hok
          dsimp only at hok
          cases h4 : jeeStep info1
              (applyAsg (applyAsg (applyAsg settings kBaseid a1) kFrequency
                (some (.str k433))) kGroup a3) kQuiet
              ((dictGet kwargs kQuiet).getD (jeeDefaultOf kQuiet)) with
          | error e => cases e; rw [h4] at hok; cases hok
          | ok tr4 =>
            obtain ⟨a4, c4, l4⟩ := tr4
            rw [h4] at hok
            dsimp only at hok
            injection hok with hok2
            subst hok2
            show dictGet (setFold jeeBaseDefaults _ kwargs []).1 kFrequency = _
            rw [setFold_get_notmem _ _ _ _ _ (by decide),
              dictGet_applyAsg_ne _ _ _ _ (by decide),
              dictGet_applyAsg_ne _ _ _ _ (by decide)]
            exact dictGet_dictSet_self _ kFrequency (.str k433)
    · -- group: third step
      cases h1 : jeeStep info1 settings kBaseid
          ((dictGet kwargs kBaseid).getD (jeeDefaultOf kBaseid)) with
      | error e => cases e; rw [h1] at hok; cases hok
      | ok tr1 =>
        obtain ⟨a1, c1, l1⟩ := tr1
        rw [h1] at hok
        dsimp only at hok
        cases h2 : jeeStep info1 (applyAsg settings kBaseid a1) kFrequency
            ((dictGet kwargs kFrequency).getD (jeeDefaultOf kFrequency)) with
        | error e => cases e; rw [h2] at hok; cases hok
        | ok tr2 =>
          obtain ⟨a2, c2, l2⟩ := tr2
          rw [h2] at hok
          dsimp only at hok
          have hc3 : (dictGet kwargs kGroup).getD (jeeDefaultOf kGroup)
              = .str k210 := by
            rw [hkw]
            rfl
          have hgp : dictGet (applyAsg (applyAsg settings kBaseid a1) kFrequency a2) kGroup
              = dictGet settings kGroup := by
            rw [dictGet_applyAsg_ne _ _ _ _ (by decide),
              dictGet_applyAsg_ne _ _ _ _ (by decide)]
          have hEq1 : storedEqB (applyAsg (applyAsg settings kBaseid a1) kFrequency a2)
              kGroup (.str k210) = false := by
            rw [storedEqB_congr _ _ _ _ hgp]
            exact hEq
          have hs3 := jeeStep_default_group info1
            (applyAsg (applyAsg settings kBaseid a1) kFrequency a2) hEq1
          rw [hc3, hs3] at hok
          dsimp only at hok
          cases h4 : jeeStep info1
              (applyAsg (applyAsg (applyAsg settings kBaseid a1) kFrequency a2) kGroup
                (some (.str k210))) kQuiet
              ((dictGet kwargs kQuiet).getD (jeeDefaultOf kQuiet)) with
          | error e => cases e; rw [h4] at hok; cases hok
          | ok tr4 =>
            obtain ⟨a4, c4, l4⟩ := tr4
            rw [h4] at hok
            dsimp only at hok
            injection hok with hok2
            subst hok2
            show dictGet (setFold jeeBaseDefaults _ kwargs []).1 kGroup = _
            rw [setFold_get_notmem _ _ _ _ _ (by decide),
              dictGet_applyAsg_ne _ _ _ _ (by decide)]
            exact dictGet_dictSet_self _ kGroup (.str k210)
    · -- quiet: fourth step
      cases h1 : jeeStep info1 settings kBaseid
          ((dictGet kwargs kBaseid).getD (jeeDefaultOf kBaseid)) with
      | error e => cases e; rw [h1] at hok; cases hok
      | ok tr1 =>
        obtain ⟨a1, c1, l1⟩ := tr1
        rw [h1] at hok
        dsimp only at hok
        cases h2 : jeeStep info1 (applyAsg settings kBaseid a1) kFrequency
            ((dictGet kwargs kFrequency).getD (jeeDefaultOf kFrequency)) with
        | error e => cases e; rw [h2] at hok; cases hok
        | ok tr2 =>
          obtain ⟨a2, c2, l2⟩ := tr2
          rw [h2] at hok
          dsimp only at hok
          cases h3 : jeeStep info1
              (applyAsg (applyAsg settings kBaseid a1) kFrequency a2) kGroup
              ((dictGet kwargs kGroup).getD (jeeDefaultOf kGroup)) with
          | error e => cases e; rw [h3] at hok; cases hok
          | ok tr3 =>
            obtain ⟨a3, c3, l3⟩ := tr3
            rw [h3] at hok
            dsimp only at hok
            have hc4 : (dictGet kwargs kQuiet).getD (jeeDefaultOf kQuiet)
                = .str kTrueCap := by
              rw [hkw]
              rfl
            have hgp : dictGet (applyAsg (applyAsg (applyAsg settings kBaseid a1)
                kFrequency a2) kGroup a3) kQuiet = dictGet settings kQuiet := by
              rw [dictGet_applyAsg_ne _ _ _ _ (by decide),
                dictGet_applyAsg_ne _ _ _ _ (by decide),
                dictGet_applyAsg_ne _ _ _ _ (by decide)]
            have hEq1 : storedEqB (applyAsg (applyAsg (applyAsg settings kBaseid a1)
                kFrequency a2) kGroup a3) kQuiet (.str kTrueCap) = false := by
              rw [storedEqB_congr _ _ _ _ hgp]
              exact hEq
            have hs4 := jeeStep_default_quiet info1
              (applyAsg (applyAsg (applyAsg settings kBaseid a1) kFrequency a2) kGroup a3)
              hEq1
            rw [hc4, hs4] at hok
            dsimp only at hok
            injection hok with hok2
            subst hok2
            show dictGet (setFold jeeBaseDefaults _ kwargs []).1 kQuiet = _
            rw [setFold_get_notmem _ _ _ _ _ (by decide)]
            exact dictGet_dictSet_self _ kQuiet (.str kTrueCap)
  · intro settings kwargs hkw
    unfold twiSet
    cases h1 : twiStep settings kDeviceids ((dictGet kwargs kDeviceids).getD (.str [])) with
    | error e =>
      cases e
      rfl
    | ok pr =>
      obtain ⟨a1, l1⟩ := pr
      dsimp only
      have hc : (dictGet kwargs kLength).getD (PyVal.str []) = PyVal.str [] := by
        rw [hkw]
        rfl
      rw [hc]
      rfl

/-- C10 witness: a base `set` call with an empty candidate map reverts a
changed `datacode` to its default `'0'`; a radio `set` call with an empty
candidate map reverts a changed `baseid` to `'15'`; the bus `set` call with
an empty candidate map raises. -/
theorem C10_witness :
    dictGet (interfacerSet baseDefaults
        (dictSet baseDefaults kDatacode (.str kh)) []).1 kDatacode
      = some (.str kZero)
    ∧ dictGet ([(kBaseid, PyVal.str k15), (kFrequency, PyVal.str k433),
        (kGroup, PyVal.str k210), (kQuiet, PyVal.str kTrueCap),
        (kPause, PyVal.str kOff), (kInterval, PyVal.int 0),
        (kDatacode, PyVal.str kh), (kTimestamped, PyVal.str kFalseCap)] : Dict) kBaseid
      = some (.str k15)
    ∧ twiSet [(kDeviceids, .str ['5']), (kLength, .str ['8'])] [] = .error () := by
  refine ⟨?_, ?_, ?_⟩
  · exact C10_revert_defaults.1 baseDefaults (dictSet baseDefaults kDatacode (.str kh)) []
      kDatacode (.str kZero) (by decide) (by decide) (by decide) (by decide) (by decide)
  · exact C10_revert_defaults.2.1 [] [(kBaseid, .str ['2', '0'])] [] kBaseid
      ([(kBaseid, PyVal.str k15), (kFrequency, PyVal.str k433),
        (kGroup, PyVal.str k210), (kQuiet, PyVal.str kTrueCap),
        (kPause, PyVal.str kOff), (kInterval, PyVal.int 0),
        (kDatacode, PyVal.str kh), (kTimestamped, PyVal.str kFalseCap)],
       [['1', '5', 'i'], ['4', 'b'], ['2', '1', '0', 'g'], ['1', 'q']],
       [.infoSetting kBaseid (PyVal.str k15), .infoSetting kFrequency (PyVal.str k433),
        .infoSetting kGroup (PyVal.str k210), .infoSetting kQuiet (PyVal.str kTrueCap),
        .debugSetting kPause (PyVal.str kOff), .debugSetting kInterval (PyVal.int 0),
        .debugSetting kDatacode (PyVal.str kh),
        .debugSetting kTimestamped (PyVal.str kFalseCap)])
      (by decide) (by decide) (by decide) (by rfl)
  · exact C10_revert_defaults.2.2 [(kDeviceids, .str ['5']), (kLength, .str ['8'])] []
      (by decide)
